import Mathlib

/-!
Shallow embedding of the cabal agent-orchestration core: the files
src/agent.rs, src/hierarchy.rs, src/session.rs, src/orchestrator.rs and
src/channel.rs of the repository.

Modelling conventions:
* Rust HashMaps become association lists over Nat keys with unique keys.
* The opaque generated identifiers (AgentId, SessionId, TaskId,
  SubmissionId) become natural numbers drawn from explicit counters that
  are threaded through the state, which models fresh, never-reused ids.
* Event emission on the unbounded channel always succeeds in the source
  (send errors are discarded with a wildcard let); it is modelled by each
  operation returning the list of events it emits, in emission order.
* The protocol crate (warhorn) is external to the repository; only the
  fields and variants the core reads or writes are modelled (for example
  AgentConfig keeps role, can_spawn and max_children; the model and cwd
  strings are carried by no modelled operation).
* Recursive operations whose Rust termination argument is the shrinking
  agent table (Session::terminate_agent, AgentHierarchy::depth) are
  defined with an explicit fuel parameter; the public wrappers pass fuel
  that is proved sufficient wherever the development uses them.
-/

namespace Cabal

/-! ## Association lists standing for HashMap -/

/-- Lookup in an association list, modelling HashMap get. -/
def lookupA {α : Type} (m : List (Nat × α)) (k : Nat) : Option α :=
  (m.find? (fun p => p.1 == k)).map Prod.snd

/-- Remove a key, modelling HashMap remove on unique keys. -/
def eraseA {α : Type} (m : List (Nat × α)) (k : Nat) : List (Nat × α) :=
  m.filter (fun p => p.1 != k)

/-- Insert or replace a binding, modelling HashMap insert. -/
def insertA {α : Type} (m : List (Nat × α)) (k : Nat) (v : α) : List (Nat × α) :=
  eraseA m k ++ [(k, v)]

/-- Update the value at a key in place when present, modelling get_mut
followed by a mutation (absent keys are left alone). -/
def modifyA {α : Type} (m : List (Nat × α)) (k : Nat) (f : α → α) : List (Nat × α) :=
  m.map (fun p => if p.1 == k then (p.1, f p.2) else p)

/-- The key list of an association list. -/
def keysA {α : Type} (m : List (Nat × α)) : List Nat :=
  m.map Prod.fst

/-! ## Protocol types (warhorn), restricted to what the core touches -/

/-- AgentRole from the protocol crate. -/
inductive AgentRole : Type
  | Orchestrator : AgentRole
  | DomainLead : String → AgentRole
  | Worker : AgentRole
deriving DecidableEq, Repr

/-- AgentStatus from the protocol crate: the lifecycle tags the core
assigns (Spawning on creation, Initializing and Running from agent
start-up, Terminated from termination). -/
inductive AgentStatus : Type
  | Spawning : AgentStatus
  | Initializing : AgentStatus
  | Running : AgentStatus
  | Terminated : AgentStatus
deriving DecidableEq, Repr

/-- AgentConfig: the fields the core reads (role, spawn policy). -/
structure AgentConfig : Type where
  role : AgentRole
  can_spawn : Bool
  max_children : Option Nat
deriving DecidableEq, Repr

/-- SessionConfig: the field the core reads. -/
structure SessionConfig : Type where
  max_parallel_agents : Nat
deriving DecidableEq, Repr

/-- Outbound events, with the submission id each carries. -/
inductive Event : Type
  | SessionConfigured : Nat → Nat → Event
  | TaskStarted : Nat → Nat → String → Event
  | TaskInterrupted : Nat → Nat → Event
  | AgentSpawned : Nat → Nat → Option Nat → AgentRole → AgentConfig → Event
  | AgentStatusChanged : Nat → Nat → AgentStatus → Event
  | AgentMessage : Nat → Nat → String → Bool → Event
  | AgentTerminated : Nat → Nat → String → Event
deriving DecidableEq, Repr

/-- GoblinError from src/error.rs (the wrapped external errors carry
just their message here). -/
inductive GoblinError : Type
  | NoActiveSession : GoblinError
  | NoOrchestrator : GoblinError
  | AgentNotFound : Nat → GoblinError
  | SpawnDenied : String → GoblinError
  | TaskError : String → GoblinError
  | ChannelError : String → GoblinError
  | ConfigError : String → GoblinError
deriving DecidableEq, Repr

/-! ## Agent (src/agent.rs) -/

/-- The Agent struct: id, role, status, config, parent link, children
list, current task and token-usage counters. The tool-registry and
event-sender handles carry no modelled state. -/
structure Agent : Type where
  id : Nat
  role : AgentRole
  status : AgentStatus
  config : AgentConfig
  parent_id : Option Nat
  children : List Nat
  current_task : Option Nat
  usage_input : Nat
  usage_output : Nat
  usage_total : Nat
deriving DecidableEq, Repr

/-- Agent::new: fresh id, role copied from the config, status Spawning,
no children, no task, zero usage. -/
def Agent.new (id : Nat) (config : AgentConfig) (parent_id : Option Nat) : Agent :=
  { id := id
    role := config.role
    status := AgentStatus.Spawning
    config := config
    parent_id := parent_id
    children := []
    current_task := none
    usage_input := 0
    usage_output := 0
    usage_total := 0 }

/-- Agent::set_status: overwrite the status field, then emit one
AgentStatusChanged event. -/
def Agent.set_status (a : Agent) (st : AgentStatus) (subId : Nat) :
    Agent × List Event :=
  ({ a with status := st }, [Event.AgentStatusChanged subId a.id st])

/-- Agent::assign_task. -/
def Agent.assign_task (a : Agent) (taskId : Nat) : Agent :=
  { a with current_task := some taskId }

/-- Agent::add_child: push onto the children vector. -/
def Agent.add_child (a : Agent) (childId : Nat) : Agent :=
  { a with children := a.children ++ [childId] }

/-- Agent::remove_child: remove the first occurrence, report whether one
was found. -/
def Agent.remove_child (a : Agent) (childId : Nat) : Agent × Bool :=
  if a.children.contains childId then
    ({ a with children := a.children.erase childId }, true)
  else
    (a, false)

/-- Agent::can_spawn: false when spawning is disabled; otherwise bounded
by max_children when that cap is set. -/
def Agent.can_spawn (a : Agent) : Bool :=
  if !a.config.can_spawn then
    false
  else
    match a.config.max_children with
    | some max => a.children.length < max
    | none => true

/-- Agent::add_usage: accumulate counters, recompute the total. -/
def Agent.add_usage (a : Agent) (input output : Nat) : Agent :=
  let inp := a.usage_input + input
  let out := a.usage_output + output
  { a with usage_input := inp, usage_output := out, usage_total := inp + out }

/-- Agent::emit_message: emit one AgentMessage event. -/
def Agent.emit_message (a : Agent) (subId : Nat) (content : String) (streaming : Bool) :
    List Event :=
  [Event.AgentMessage subId a.id content streaming]

/-- Agent::terminate: set status to Terminated (which itself emits a
status-changed event), then emit an AgentTerminated event. -/
def Agent.terminate (a : Agent) (subId : Nat) (reason : String) :
    Agent × List Event :=
  let r := a.set_status AgentStatus.Terminated subId
  (r.1, r.2 ++ [Event.AgentTerminated subId r.1.id reason])

/-! ## Hierarchy (src/hierarchy.rs) -/

/-- A node of the hierarchy index. -/
structure HierarchyNode : Type where
  agent_id : Nat
  role : AgentRole
  parent : Option Nat
  children : List Nat
deriving DecidableEq, Repr

/-- AgentHierarchy: nodes keyed by agent id plus the root pointer. -/
structure AgentHierarchy : Type where
  nodes : List (Nat × HierarchyNode)
  root : Option Nat
deriving DecidableEq, Repr

/-- AgentHierarchy::new. -/
def AgentHierarchy.new : AgentHierarchy :=
  { nodes := [], root := none }

/-- AgentHierarchy::add_agent: a parentless insert overwrites the root
pointer; a parented insert appends the id to the children of the stated
parent when that parent is known (dangling parents are accepted); the
new node is then inserted with an empty children list. -/
def AgentHierarchy.add_agent (h : AgentHierarchy) (agent_id : Nat)
    (role : AgentRole) (parent_id : Option Nat) : AgentHierarchy :=
  let root1 := if parent_id.isNone then some agent_id else h.root
  let nodes1 :=
    match parent_id with
    | some pid => modifyA h.nodes pid (fun n => { n with children := n.children ++ [agent_id] })
    | none => h.nodes
  let node : HierarchyNode :=
    { agent_id := agent_id, role := role, parent := parent_id, children := [] }
  { nodes := insertA nodes1 agent_id node, root := root1 }

/-- AgentHierarchy::remove_agent: drop the node, retain-filter it out of
its parent node when that parent is known, and clear the root pointer
when the removed id was the root; reports whether a node was removed. -/
def AgentHierarchy.remove_agent (h : AgentHierarchy) (agent_id : Nat) :
    AgentHierarchy × Bool :=
  match lookupA h.nodes agent_id with
  | none => (h, false)
  | some node =>
    let nodes1 := eraseA h.nodes agent_id
    let nodes2 :=
      match node.parent with
      | some pid => modifyA nodes1 pid
          (fun n => { n with children := n.children.filter (fun c => c != agent_id) })
      | none => nodes1
    let root1 := if h.root = some agent_id then none else h.root
    ({ nodes := nodes2, root := root1 }, true)

/-- AgentHierarchy::parent. -/
def AgentHierarchy.parent (h : AgentHierarchy) (agent_id : Nat) : Option Nat :=
  (lookupA h.nodes agent_id).bind (fun n => n.parent)

/-- AgentHierarchy::children (empty for unknown ids). -/
def AgentHierarchy.children (h : AgentHierarchy) (agent_id : Nat) : List Nat :=
  ((lookupA h.nodes agent_id).map (fun n => n.children)).getD []

/-- Fuel-indexed unfolding of the parent-walking loop of
AgentHierarchy::depth: zero for unknown ids and for parentless nodes,
one more than the parent depth otherwise. -/
def depthF : Nat → AgentHierarchy → Nat → Nat
  | 0, _, _ => 0
  | fuel + 1, h, agent_id =>
    match lookupA h.nodes agent_id with
    | none => 0
    | some node =>
      match node.parent with
      | none => 0
      | some p => depthF fuel h p + 1

/-- Whether the parent chain from an id terminates (at a parentless node
or at a missing node) within the given number of steps. The Rust loop
runs forever on a parent cycle, so every statement about depth carries
this as its termination certificate. -/
def chainDoneF : Nat → AgentHierarchy → Nat → Bool
  | 0, _, _ => false
  | fuel + 1, h, agent_id =>
    match lookupA h.nodes agent_id with
    | none => true
    | some node =>
      match node.parent with
      | none => true
      | some p => chainDoneF fuel h p

/-- AgentHierarchy::depth. A terminating parent chain never revisits a
node (the parent map is a function), so it has at most one hop per node
and fuel one beyond the node count always suffices. -/
def AgentHierarchy.depth (h : AgentHierarchy) (agent_id : Nat) : Nat :=
  depthF (h.nodes.length + 1) h agent_id

/-- AgentHierarchy::agents_at_depth: filter all keys by computed depth. -/
def AgentHierarchy.agents_at_depth (h : AgentHierarchy) (d : Nat) : List Nat :=
  (keysA h.nodes).filter (fun k => h.depth k == d)

/-- AgentHierarchy::len. -/
def AgentHierarchy.len (h : AgentHierarchy) : Nat :=
  h.nodes.length

/-- Membership of an id in the hierarchy node table. -/
def hmemH (h : AgentHierarchy) (k : Nat) : Bool :=
  (lookupA h.nodes k).isSome

/-- k lies in the subtree rooted at x: the parent chain from k reaches
x. This is the notion of descendant used throughout (x itself counts as
a member of its own subtree). -/
inductive InSubtree (h : AgentHierarchy) (x : Nat) : Nat → Prop
  | base : InSubtree h x x
  | step (c p : Nat) : h.parent c = some p → InSubtree h x p → InSubtree h x c

/-- Acyclicity of the parent map: no node is an ancestor of its own
parent. -/
def Acyc (h : AgentHierarchy) : Prop :=
  ∀ k p, h.parent k = some p → ¬ InSubtree h k p

/-! ## Session (src/session.rs) -/

/-- The Session struct: agent table, hierarchy index, current task.
next_id is the supply of fresh agent ids (AgentId::new in the source). -/
structure Session : Type where
  id : Nat
  config : SessionConfig
  agents : List (Nat × Agent)
  hierarchy : AgentHierarchy
  current_task : Option Nat
  next_id : Nat
deriving DecidableEq, Repr

/-- Session::new: empty table, empty hierarchy, no current task. -/
def Session.new (id : Nat) (config : SessionConfig) : Session :=
  { id := id
    config := config
    agents := []
    hierarchy := AgentHierarchy.new
    current_task := none
    next_id := 0 }

/-- Membership of an id in the agent table. -/
def tmemS (s : Session) (k : Nat) : Bool :=
  (lookupA s.agents k).isSome

/-- The success path of Session::spawn_agent, after parent validation:
construct the agent, insert it into the table, add it to the hierarchy,
push it onto the children of its parent, emit one AgentSpawned event. -/
def Session.spawn_agent_insert (s : Session) (config : AgentConfig)
    (parent_id : Option Nat) (subId : Nat) :
    Session × List Event × Except GoblinError Nat :=
  let agent_id := s.next_id
  let agent := Agent.new agent_id config parent_id
  let agents1 := insertA s.agents agent_id agent
  let hierarchy1 := s.hierarchy.add_agent agent_id config.role parent_id
  let agents2 :=
    match parent_id with
    | some pid => modifyA agents1 pid (fun p => p.add_child agent_id)
    | none => agents1
  ({ s with agents := agents2, hierarchy := hierarchy1, next_id := s.next_id + 1 },
   [Event.AgentSpawned subId agent_id parent_id config.role config],
   Except.ok agent_id)

/-- Session::spawn_agent: a stated parent must exist in the table (else
AgentNotFound) and pass can_spawn (else SpawnDenied); both checks happen
before any mutation, so an error leaves the session unchanged. The
returned Nat is the id of the spawned agent (the handle). -/
def Session.spawn_agent (s : Session) (config : AgentConfig)
    (parent_id : Option Nat) (subId : Nat) :
    Session × List Event × Except GoblinError Nat :=
  match parent_id with
  | some pid =>
    match lookupA s.agents pid with
    | none => (s, [], Except.error (GoblinError.AgentNotFound pid))
    | some parent =>
      if !parent.can_spawn then
        (s, [], Except.error (GoblinError.SpawnDenied "Parent agent cannot spawn more children"))
      else
        s.spawn_agent_insert config parent_id subId
  | none => s.spawn_agent_insert config parent_id subId

mutual

/-- Fuel-indexed unfolding of Session::terminate_agent: remove the agent
from the table (AgentNotFound if absent), unlink it from the children of
its table parent, recursively terminate its children (swallowing their
errors, with the fixed parent-terminated reason), remove its node from
the hierarchy, and finally emit its termination events. Each recursive
call runs on a strictly smaller table, so fuel at least the table size
makes the fuel bound unreachable. -/
def termAgentF : Nat → Session → Nat → String → Nat →
    Session × List Event × Except GoblinError Unit
  | 0, s, agent_id, _, _ =>
    (s, [], Except.error (GoblinError.AgentNotFound agent_id))
  | fuel + 1, s, agent_id, reason, subId =>
    match lookupA s.agents agent_id with
    | none => (s, [], Except.error (GoblinError.AgentNotFound agent_id))
    | some agent =>
      let agents1 := eraseA s.agents agent_id
      let agents2 :=
        match agent.parent_id with
        | some pid => modifyA agents1 pid (fun p => (p.remove_child agent_id).1)
        | none => agents1
      let s1 := { s with agents := agents2 }
      let r := termChildrenF fuel agent.children s1 subId
      let s2 := { r.1 with hierarchy := (r.1.hierarchy.remove_agent agent_id).1 }
      let rT := agent.terminate subId reason
      (s2, r.2 ++ rT.2, Except.ok ())
termination_by fuel _ _ _ _ => (fuel, 0)

/-- The recursive-termination loop over a children list. -/
def termChildrenF : Nat → List Nat → Session → Nat → Session × List Event
  | _, [], s, _ => (s, [])
  | fuel, c :: cs, s, subId =>
    let r1 := termAgentF fuel s c "Parent terminated" subId
    let r2 := termChildrenF fuel cs r1.1 subId
    (r2.1, r1.2.1 ++ r2.2)
termination_by fuel cs _ _ => (fuel, cs.length + 1)

end

/-- Session::terminate_agent, with fuel one beyond the table size (the
recursion depth is bounded by the table size because every call removes
its target from the table before recursing). -/
def Session.terminate_agent (s : Session) (agent_id : Nat) (reason : String)
    (subId : Nat) : Session × List Event × Except GoblinError Unit :=
  termAgentF (s.agents.length + 1) s agent_id reason subId

/-- Session::set_current_task. -/
def Session.set_current_task (s : Session) (taskId : Option Nat) : Session :=
  { s with current_task := taskId }

/-- Session::agent_count. -/
def Session.agent_count (s : Session) : Nat :=
  s.agents.length

/-- Session::orchestrator: the agent at the hierarchy root, if any. -/
def Session.orchestrator (s : Session) : Option Agent :=
  s.hierarchy.root.bind (fun rid => lookupA s.agents rid)

/-- The states a Session can be in after any sequence of completed spawn
and terminate operations starting from Session::new (failed operations
return the state unchanged, so they are covered by the same steps). -/
inductive ReachS : Session → Prop
  | init (id : Nat) (config : SessionConfig) : ReachS (Session.new id config)
  | spawn (s : Session) (config : AgentConfig) (parent_id : Option Nat) (subId : Nat) :
      ReachS s → ReachS (s.spawn_agent config parent_id subId).1
  | term (s : Session) (agent_id : Nat) (reason : String) (subId : Nat) :
      ReachS s → ReachS (s.terminate_agent agent_id reason subId).1

/-! ## Channel (src/channel.rs) -/

/-- Inbound commands (warhorn Op), with the submission id each carries. -/
inductive Op : Type
  | ConfigureSession : Nat → SessionConfig → Op
  | UserInput : Nat → String → Op
  | Interrupt : Nat → Option Nat → Op
  | SpawnAgent : Nat → AgentConfig → Option Nat → Op
  | TerminateAgent : Nat → Nat → Option String → Op
  | ExecApproval : Nat → Nat → Bool → Op
  | Other : Nat → Op
deriving DecidableEq, Repr

/-- ChannelError from src/channel.rs. -/
inductive ChannelErr : Type
  | Closed : ChannelErr
deriving DecidableEq, Repr

/-- The shared state of one channel pair: the two unbounded queues and
whether the consumer endpoint has been dropped. -/
structure ChannelState : Type where
  op_queue : List Op
  event_queue : List Event
  closed : Bool
deriving DecidableEq, Repr

/-- GoblinChannel::new: fresh empty unbounded queues. -/
def GoblinChannel.new : ChannelState :=
  { op_queue := [], event_queue := [], closed := false }

/-- GoblinChannel::send: an unbounded send never fails for capacity,
only when the peer is closed. -/
def GoblinChannel.send (c : ChannelState) (op : Op) :
    ChannelState × Except ChannelErr Unit :=
  if c.closed then
    (c, Except.error ChannelErr.Closed)
  else
    ({ c with op_queue := c.op_queue ++ [op] }, Except.ok ())

/-- GoblinChannel::try_recv on the event queue. -/
def GoblinChannel.try_recv (c : ChannelState) : ChannelState × Option Event :=
  match c.event_queue with
  | [] => (c, none)
  | e :: rest => ({ c with event_queue := rest }, some e)

/-- ChannelBuilder from src/channel.rs: records an optional buffer
size. -/
structure ChannelBuilder : Type where
  buffer_size : Option Nat
deriving DecidableEq, Repr

/-- ChannelBuilder::new. -/
def ChannelBuilder.new : ChannelBuilder :=
  { buffer_size := none }

/-- ChannelBuilder::buffer_size (named with_buffer_size here because the
struct field already claims the accessor name). -/
def ChannelBuilder.with_buffer_size (b : ChannelBuilder) (size : Nat) : ChannelBuilder :=
  { b with buffer_size := some size }

/-- ChannelBuilder::build: the source always returns GoblinChannel::new
and never reads the recorded buffer size. -/
def ChannelBuilder.build (_ : ChannelBuilder) : ChannelState :=
  GoblinChannel.new

/-- Sending a sequence of ops, collecting each send result. -/
def sendAll (c : ChannelState) : List Op → ChannelState × List (Except ChannelErr Unit)
  | [] => (c, [])
  | op :: ops =>
    let r1 := GoblinChannel.send c op
    let r2 := sendAll r1.1 ops
    (r2.1, r1.2 :: r2.2)

/-! ## Orchestrator (src/orchestrator.rs) -/

/-- The dispatcher state: the session map plus the fresh-id supplies for
session and task ids (SessionId::new and TaskId::new in the source). -/
structure Orchestrator : Type where
  sessions : List (Nat × Session)
  next_session_id : Nat
  next_task_id : Nat
deriving DecidableEq, Repr

/-- Orchestrator::new: no sessions. -/
def Orchestrator.new : Orchestrator :=
  { sessions := [], next_session_id := 0, next_task_id := 0 }

/-- Orchestrator::configure_session: create and register a new session,
auto-spawn its root Orchestrator-role agent (spawn enabled, children cap
from max_parallel_agents), then emit SessionConfigured. The root spawn
has no parent so it cannot fail, but the source still propagates its
error before the SessionConfigured event, which the model mirrors. -/
def Orchestrator.configure_session (o : Orchestrator) (config : SessionConfig)
    (subId : Nat) : Orchestrator × List Event × Except GoblinError Nat :=
  let session := Session.new o.next_session_id config
  let session_id := session.id
  let orchestrator_config : AgentConfig :=
    { role := AgentRole.Orchestrator
      can_spawn := true
      max_children := some config.max_parallel_agents }
  let r := session.spawn_agent orchestrator_config none subId
  let o1 := { o with
    sessions := insertA o.sessions session_id r.1
    next_session_id := o.next_session_id + 1 }
  match r.2.2 with
  | Except.error e => (o1, r.2.1, Except.error e)
  | Except.ok _ =>
    (o1, r.2.1 ++ [Event.SessionConfigured subId session_id], Except.ok session_id)

/-- Orchestrator::handle_user_input: needs an active session (the first
one in the map) and its orchestrator agent; allocates a fresh task id,
records it as current, emits TaskStarted, and forwards the prompt to the
orchestrator agent as a plain message. -/
def Orchestrator.handle_user_input (o : Orchestrator) (prompt : String)
    (subId : Nat) : Orchestrator × List Event × Except GoblinError Unit :=
  match o.sessions.head? with
  | none => (o, [], Except.error GoblinError.NoActiveSession)
  | some (sid, session) =>
    let task_id := o.next_task_id
    let session1 := session.set_current_task (some task_id)
    let o1 := { o with
      sessions := insertA o.sessions sid session1
      next_task_id := o.next_task_id + 1 }
    let started := [Event.TaskStarted subId task_id prompt]
    match session1.orchestrator with
    | none => (o1, started, Except.error GoblinError.NoOrchestrator)
    | some orch =>
      (o1, started ++ orch.emit_message subId ("Received task: " ++ prompt) false,
       Except.ok ())

/-- Orchestrator::handle_interrupt: on the first session in the map,
interrupt the given task id or else the current task; when one exists,
emit exactly one TaskInterrupted event and clear the current task. -/
def Orchestrator.handle_interrupt (o : Orchestrator) (task_id : Option Nat)
    (subId : Nat) : Orchestrator × List Event × Except GoblinError Unit :=
  match o.sessions.head? with
  | none => (o, [], Except.error GoblinError.NoActiveSession)
  | some (sid, session) =>
    let current := task_id.orElse (fun _ => session.current_task)
    match current with
    | some tid =>
      let session1 := session.set_current_task none
      ({ o with sessions := insertA o.sessions sid session1 },
       [Event.TaskInterrupted subId tid], Except.ok ())
    | none => (o, [], Except.ok ())

/-- Orchestrator::spawn_agent: delegate to the first session. -/
def Orchestrator.spawn_agent (o : Orchestrator) (config : AgentConfig)
    (parent_id : Option Nat) (subId : Nat) :
    Orchestrator × List Event × Except GoblinError Unit :=
  match o.sessions.head? with
  | none => (o, [], Except.error GoblinError.NoActiveSession)
  | some (sid, session) =>
    let r := session.spawn_agent config parent_id subId
    ({ o with sessions := insertA o.sessions sid r.1 }, r.2.1,
     match r.2.2 with
     | Except.ok _ => Except.ok ()
     | Except.error e => Except.error e)

/-- Orchestrator::terminate_agent: delegate to the first session (a
missing reason defaults to the empty string). -/
def Orchestrator.terminate_agent (o : Orchestrator) (agent_id : Nat)
    (reason : Option String) (subId : Nat) :
    Orchestrator × List Event × Except GoblinError Unit :=
  match o.sessions.head? with
  | none => (o, [], Except.error GoblinError.NoActiveSession)
  | some (sid, session) =>
    let r := session.terminate_agent agent_id (reason.getD "") subId
    ({ o with sessions := insertA o.sessions sid r.1 }, r.2.1, r.2.2)

/-- Orchestrator::handle_op: the dispatch of one inbound command.
ExecApproval is recorded only; unknown commands are ignored. -/
def Orchestrator.handle_op (o : Orchestrator) (op : Op) :
    Orchestrator × List Event × Except GoblinError Unit :=
  match op with
  | Op.ConfigureSession subId config =>
    let r := o.configure_session config subId
    (r.1, r.2.1,
     match r.2.2 with
     | Except.ok _ => Except.ok ()
     | Except.error e => Except.error e)
  | Op.UserInput subId prompt => o.handle_user_input prompt subId
  | Op.Interrupt subId task_id => o.handle_interrupt task_id subId
  | Op.SpawnAgent subId config parent_id => o.spawn_agent config parent_id subId
  | Op.TerminateAgent subId agent_id reason => o.terminate_agent agent_id reason subId
  | Op.ExecApproval _ _ _ => (o, [], Except.ok ())
  | Op.Other _ => (o, [], Except.ok ())

/-- Iterated spawning under one fixed parent: the session state after
k consecutive spawn_agent calls (used to state the round-trip scenarios
of the spec). -/
def spawnIter (s : Session) (config : AgentConfig) (parent_id : Option Nat)
    (subId : Nat) : Nat → Session
  | 0 => s
  | k + 1 => ((spawnIter s config parent_id subId k).spawn_agent config parent_id subId).1

/-! ## Consistency invariants tying the agent table to the hierarchy -/

/-- The part of the session invariant that also holds in the transient
states inside a cascading termination (where ids being torn down are
already out of the agent table but still in the hierarchy): unique keys
on both sides, the table inside the hierarchy, table entries mirroring
their hierarchy node (children up to liveness filtering), the
parent/children views of the hierarchy mutually consistent, and an
acyclic parent map with duplicate-free children lists. -/
structure Mid (s : Session) : Prop where
  ta_nodup : (keysA s.agents).Nodup
  hn_nodup : (keysA s.hierarchy.nodes).Nodup
  t_sub_h : ∀ k, (lookupA s.agents k).isSome = true →
      (lookupA s.hierarchy.nodes k).isSome = true
  agent_id_eq : ∀ k a, lookupA s.agents k = some a → a.id = k
  achildren : ∀ k a n, lookupA s.agents k = some a →
      lookupA s.hierarchy.nodes k = some n →
      a.children = n.children.filter (fun c => tmemS s c)
  aparent : ∀ k a n, lookupA s.agents k = some a →
      lookupA s.hierarchy.nodes k = some n → a.parent_id = n.parent
  child_iff : ∀ p c, c ∈ s.hierarchy.children p ↔ s.hierarchy.parent c = some p
  acyc : Acyc s.hierarchy
  hc_nodup : ∀ k n, lookupA s.hierarchy.nodes k = some n → n.children.Nodup

/-- The full invariant of externally observable session states: the
transient invariant, the hierarchy containing nothing beyond the table,
and every key below the fresh-id counter. -/
structure WF (s : Session) : Prop where
  mid : Mid s
  h_sub_t : ∀ k, (lookupA s.hierarchy.nodes k).isSome = true →
      (lookupA s.agents k).isSome = true
  fresh : ∀ k, k ∈ keysA s.agents → k < s.next_id

/-- Effect specification of one termAgentF call on a found agent: the
result state removes exactly the subtree of x (per the pre-state parent
chains) from the table and the hierarchy, edits only the entries of the
parent of x (dropping x from its children on both sides), and leaves
every other entry, the key uniqueness, the table size bound, and the
non-agent session fields intact. -/
def TermSpec (s : Session) (x : Nat) (a : Agent) (s' : Session) : Prop :=
  (∀ k, tmemS s' k = true ↔ (tmemS s k = true ∧ ¬ InSubtree s.hierarchy x k)) ∧
  (∀ k, hmemH s'.hierarchy k = true ↔
    (hmemH s.hierarchy k = true ∧ ¬ InSubtree s.hierarchy x k)) ∧
  (∀ k, ¬ InSubtree s.hierarchy x k → a.parent_id ≠ some k →
    lookupA s'.agents k = lookupA s.agents k ∧
    lookupA s'.hierarchy.nodes k = lookupA s.hierarchy.nodes k) ∧
  (∀ q, a.parent_id = some q →
    lookupA s'.agents q = (lookupA s.agents q).map (fun p => (p.remove_child x).1) ∧
    lookupA s'.hierarchy.nodes q = (lookupA s.hierarchy.nodes q).map
      (fun n => { n with children := n.children.filter (fun c => c != x) })) ∧
  ((keysA s'.agents).Nodup ∧ (keysA s'.hierarchy.nodes).Nodup) ∧
  (s'.agents.length ≤ s.agents.length) ∧
  (s'.current_task = s.current_task ∧ s'.next_id = s.next_id ∧
   s'.id = s.id ∧ s'.config = s.config)

/-- Effect specification of a termChildrenF cascade over the children
list cs of a dead parent px: the result removes exactly the union of the
subtrees of the cs, edits only the hierarchy node of px (dropping the cs
from its children), and leaves everything else intact. -/
def TermListSpec (s : Session) (px : Nat) (cs : List Nat) (s' : Session) : Prop :=
  (∀ k, tmemS s' k = true ↔
    (tmemS s k = true ∧ ∀ c ∈ cs, ¬ InSubtree s.hierarchy c k)) ∧
  (∀ k, hmemH s'.hierarchy k = true ↔
    (hmemH s.hierarchy k = true ∧ ∀ c ∈ cs, ¬ InSubtree s.hierarchy c k)) ∧
  (∀ k, (∀ c ∈ cs, ¬ InSubtree s.hierarchy c k) → k ≠ px →
    lookupA s'.agents k = lookupA s.agents k ∧
    lookupA s'.hierarchy.nodes k = lookupA s.hierarchy.nodes k) ∧
  (lookupA s'.agents px = lookupA s.agents px ∧
   lookupA s'.hierarchy.nodes px = (lookupA s.hierarchy.nodes px).map
     (fun n => { n with children := n.children.filter (fun c => !cs.contains c) })) ∧
  ((keysA s'.agents).Nodup ∧ (keysA s'.hierarchy.nodes).Nodup) ∧
  (s'.agents.length ≤ s.agents.length) ∧
  (s'.current_task = s.current_task ∧ s'.next_id = s.next_id ∧
   s'.id = s.id ∧ s'.config = s.config)

/-- The induction statement for termAgentF at a given fuel: on every
transient-invariant state with enough fuel, terminating a live agent
whose proper subtree is fully live succeeds and realizes TermSpec. -/
def PAgent (fuel : Nat) : Prop :=
  ∀ s x reason subId agent, Mid s → s.agents.length ≤ fuel →
    lookupA s.agents x = some agent →
    (∀ e, InSubtree s.hierarchy x e → e ≠ x → tmemS s e = true) →
    (termAgentF fuel s x reason subId).2.2 = Except.ok () ∧
    TermSpec s x agent (termAgentF fuel s x reason subId).1

/-! ## Ground lemmas about the association-list operations -/

theorem lookupA_cons {α : Type} (k' : Nat) (v : α) (m : List (Nat × α)) (k : Nat) :
    lookupA ((k', v) :: m) k = if k' = k then some v else lookupA m k := by
  unfold lookupA
  by_cases h : k' = k
  · rw [List.find?_cons_of_pos _ (by simp [h]), if_pos h]
    rfl
  · rw [List.find?_cons_of_neg _ (by simp [h]), if_neg h]

theorem lookupA_append {α : Type} (m₁ m₂ : List (Nat × α)) (k : Nat) :
    lookupA (m₁ ++ m₂) k = (lookupA m₁ k).orElse (fun _ => lookupA m₂ k) := by
  induction m₁ with
  | nil => simp [lookupA]
  | cons p m ih =>
    obtain ⟨k', v⟩ := p
    by_cases h : k' = k <;> simp [lookupA_cons, h, ih]

theorem keysA_cons {α : Type} (k' : Nat) (v : α) (m : List (Nat × α)) :
    keysA ((k', v) :: m) = k' :: keysA m := rfl

theorem lookupA_isSome_iff_mem {α : Type} (m : List (Nat × α)) (k : Nat) :
    (lookupA m k).isSome = true ↔ k ∈ keysA m := by
  induction m with
  | nil => simp [lookupA, keysA]
  | cons p m ih =>
    obtain ⟨k', v⟩ := p
    by_cases h : k' = k
    · simp [lookupA_cons, h, keysA_cons]
    · simp only [lookupA_cons, if_neg h, keysA_cons, List.mem_cons, ih]
      constructor
      · intro hm
        exact Or.inr hm
      · rintro (hm | hm)
        · exact absurd hm.symm h
        · exact hm

theorem lookupA_eq_none_iff_not_mem {α : Type} (m : List (Nat × α)) (k : Nat) :
    lookupA m k = none ↔ k ∉ keysA m := by
  rw [← lookupA_isSome_iff_mem]
  cases lookupA m k <;> simp

theorem eraseA_cons_self {α : Type} (k : Nat) (v : α) (m : List (Nat × α)) :
    eraseA ((k, v) :: m) k = eraseA m k := by
  simp [eraseA, List.filter_cons]

theorem eraseA_cons_ne {α : Type} (k k' : Nat) (v : α) (m : List (Nat × α))
    (h : k' ≠ k) : eraseA ((k', v) :: m) k = (k', v) :: eraseA m k := by
  simp [eraseA, List.filter_cons, h]

theorem lookupA_eraseA_self {α : Type} (m : List (Nat × α)) (k : Nat) :
    lookupA (eraseA m k) k = none := by
  induction m with
  | nil => rfl
  | cons p m ih =>
    obtain ⟨k', v⟩ := p
    by_cases h : k' = k
    · subst h
      rw [eraseA_cons_self]
      exact ih
    · rw [eraseA_cons_ne _ _ _ _ h, lookupA_cons, if_neg h]
      exact ih

theorem lookupA_eraseA_ne {α : Type} (m : List (Nat × α)) (k k' : Nat) (h : k' ≠ k) :
    lookupA (eraseA m k) k' = lookupA m k' := by
  induction m with
  | nil => rfl
  | cons p m ih =>
    obtain ⟨k'', v⟩ := p
    by_cases h2 : k'' = k
    · subst h2
      rw [eraseA_cons_self, ih, lookupA_cons, if_neg (fun hh => h hh.symm)]
    · rw [eraseA_cons_ne _ _ _ _ h2, lookupA_cons, lookupA_cons, ih]

theorem keysA_eraseA {α : Type} (m : List (Nat × α)) (k : Nat) :
    keysA (eraseA m k) = (keysA m).filter (fun x => x != k) := by
  induction m with
  | nil => rfl
  | cons p m ih =>
    obtain ⟨k', v⟩ := p
    by_cases h : k' = k
    · subst h
      rw [eraseA_cons_self, keysA_cons, List.filter_cons]
      simp [ih]
    · rw [eraseA_cons_ne _ _ _ _ h, keysA_cons, keysA_cons, List.filter_cons]
      simp [h, ih]

theorem eraseA_of_not_mem {α : Type} (m : List (Nat × α)) (k : Nat)
    (h : k ∉ keysA m) : eraseA m k = m := by
  induction m with
  | nil => rfl
  | cons p m ih =>
    obtain ⟨k', v⟩ := p
    rw [keysA_cons] at h
    simp only [List.mem_cons, not_or] at h
    rw [eraseA_cons_ne _ _ _ _ (fun hh => h.1 hh.symm), ih h.2]

theorem length_eraseA_of_mem {α : Type} (m : List (Nat × α)) (k : Nat)
    (hnd : (keysA m).Nodup) (h : k ∈ keysA m) :
    (eraseA m k).length + 1 = m.length := by
  induction m with
  | nil => simp [keysA] at h
  | cons p m ih =>
    obtain ⟨k', v⟩ := p
    rw [keysA_cons] at h hnd
    rw [List.nodup_cons] at hnd
    rcases List.mem_cons.mp h with h | h
    · subst h
      rw [eraseA_cons_self, eraseA_of_not_mem m k hnd.1]
      simp
    · have hne : k' ≠ k := fun hh => hnd.1 (hh ▸ h)
      rw [eraseA_cons_ne _ _ _ _ hne]
      simp only [List.length_cons]
      rw [← ih hnd.2 h]

theorem lookupA_insertA_self {α : Type} (m : List (Nat × α)) (k : Nat) (v : α) :
    lookupA (insertA m k v) k = some v := by
  rw [insertA, lookupA_append, lookupA_eraseA_self]
  simp [lookupA_cons]

theorem lookupA_insertA_ne {α : Type} (m : List (Nat × α)) (k k' : Nat) (v : α)
    (h : k' ≠ k) : lookupA (insertA m k v) k' = lookupA m k' := by
  rw [insertA, lookupA_append, lookupA_eraseA_ne _ _ _ h]
  have : lookupA [(k, v)] k' = none := by
    rw [show ([(k, v)] : List (Nat × α)) = (k, v) :: [] from rfl, lookupA_cons,
      if_neg (fun hh => h hh.symm)]
    rfl
  rw [this]
  cases lookupA m k' <;> rfl

theorem keysA_insertA {α : Type} (m : List (Nat × α)) (k : Nat) (v : α) :
    keysA (insertA m k v) = (keysA m).filter (fun x => x != k) ++ [k] := by
  rw [insertA, keysA, List.map_append, ← keysA, keysA_eraseA]
  rfl

theorem length_insertA_of_not_mem {α : Type} (m : List (Nat × α)) (k : Nat) (v : α)
    (h : k ∉ keysA m) : (insertA m k v).length = m.length + 1 := by
  rw [insertA, eraseA_of_not_mem m k h]
  simp

theorem modifyA_cons_self {α : Type} (k : Nat) (v : α) (m : List (Nat × α))
    (f : α → α) : modifyA ((k, v) :: m) k f = (k, f v) :: modifyA m k f := by
  simp [modifyA]

theorem modifyA_cons_ne {α : Type} (k k' : Nat) (v : α) (m : List (Nat × α))
    (f : α → α) (h : k' ≠ k) :
    modifyA ((k', v) :: m) k f = (k', v) :: modifyA m k f := by
  simp [modifyA, h]

theorem lookupA_modifyA_self {α : Type} (m : List (Nat × α)) (k : Nat) (f : α → α) :
    lookupA (modifyA m k f) k = (lookupA m k).map f := by
  induction m with
  | nil => rfl
  | cons p m ih =>
    obtain ⟨k', v⟩ := p
    by_cases h : k' = k
    · subst h
      rw [modifyA_cons_self, lookupA_cons, lookupA_cons, if_pos rfl, if_pos rfl]
      rfl
    · rw [modifyA_cons_ne _ _ _ _ _ h, lookupA_cons, lookupA_cons, if_neg h, if_neg h, ih]

theorem lookupA_modifyA_ne {α : Type} (m : List (Nat × α)) (k k' : Nat) (f : α → α)
    (h : k' ≠ k) : lookupA (modifyA m k f) k' = lookupA m k' := by
  induction m with
  | nil => rfl
  | cons p m ih =>
    obtain ⟨k'', v⟩ := p
    by_cases h2 : k'' = k
    · subst h2
      rw [modifyA_cons_self, lookupA_cons, lookupA_cons,
        if_neg (fun hh => h hh.symm), if_neg (fun hh => h hh.symm), ih]
    · rw [modifyA_cons_ne _ _ _ _ _ h2, lookupA_cons, lookupA_cons, ih]

theorem keysA_modifyA {α : Type} (m : List (Nat × α)) (k : Nat) (f : α → α) :
    keysA (modifyA m k f) = keysA m := by
  induction m with
  | nil => rfl
  | cons p m ih =>
    obtain ⟨k', v⟩ := p
    by_cases h : k' = k
    · subst h
      rw [modifyA_cons_self, keysA_cons, keysA_cons, ih]
    · rw [modifyA_cons_ne _ _ _ _ _ h, keysA_cons, keysA_cons, ih]

theorem length_modifyA {α : Type} (m : List (Nat × α)) (k : Nat) (f : α → α) :
    (modifyA m k f).length = m.length := by
  simp [modifyA]

theorem keysA_eraseA_nodup {α : Type} (m : List (Nat × α)) (k : Nat)
    (h : (keysA m).Nodup) : (keysA (eraseA m k)).Nodup := by
  rw [keysA_eraseA]
  exact h.filter _

theorem keysA_insertA_nodup {α : Type} (m : List (Nat × α)) (k : Nat) (v : α)
    (h : (keysA m).Nodup) : (keysA (insertA m k v)).Nodup := by
  rw [keysA_insertA]
  refine List.Nodup.append (h.filter _) (List.nodup_singleton k) ?_
  intro x hx hk
  rw [List.mem_singleton] at hk
  subst hk
  rw [List.mem_filter] at hx
  simp at hx

theorem length_eraseA_le {α : Type} (m : List (Nat × α)) (k : Nat) :
    (eraseA m k).length ≤ m.length :=
  List.length_filter_le _ _

/-! ## Depth and chain-termination lemmas (src/hierarchy.rs) -/

theorem chainDoneF_mono (h : AgentHierarchy) (f f' : Nat) (k : Nat) (hf : f ≤ f')
    (hc : chainDoneF f h k = true) : chainDoneF f' h k = true := by
  induction f generalizing k f' with
  | zero => simp [chainDoneF] at hc
  | succ f ih =>
    obtain ⟨f'', rfl⟩ : ∃ f'', f' = f'' + 1 := ⟨f' - 1, by omega⟩
    cases hl : lookupA h.nodes k with
    | none => simp [chainDoneF, hl]
    | some node =>
      cases hp : node.parent with
      | none => simp [chainDoneF, hl, hp]
      | some p =>
        simp only [chainDoneF, hl, hp] at hc ⊢
        exact ih f'' p (by omega) hc

theorem depthF_fuel_eq (h : AgentHierarchy) (f f' : Nat) (k : Nat) (hf : f ≤ f')
    (hc : chainDoneF f h k = true) : depthF f' h k = depthF f h k := by
  induction f generalizing k f' with
  | zero => simp [chainDoneF] at hc
  | succ f ih =>
    obtain ⟨f'', rfl⟩ : ∃ f'', f' = f'' + 1 := ⟨f' - 1, by omega⟩
    cases hl : lookupA h.nodes k with
    | none => simp [depthF, hl]
    | some node =>
      cases hp : node.parent with
      | none => simp [depthF, hl, hp]
      | some p =>
        simp only [depthF, hl, hp, Nat.add_right_cancel_iff]
        simp only [chainDoneF, hl, hp] at hc
        exact ih f'' p (by omega) hc

/-! ## Channel lemmas (src/channel.rs) -/

theorem sendAll_open (ops : List Op) (c : ChannelState) (hc : c.closed = false) :
    (sendAll c ops).1.closed = false ∧
    (sendAll c ops).1.op_queue = c.op_queue ++ ops ∧
    (sendAll c ops).1.event_queue = c.event_queue ∧
    ∀ r ∈ (sendAll c ops).2, r = Except.ok () := by
  induction ops generalizing c with
  | nil => simp [sendAll, hc]
  | cons op ops ih =>
    have hsend : GoblinChannel.send c op =
        ({ c with op_queue := c.op_queue ++ [op] }, Except.ok ()) := by
      simp [GoblinChannel.send, hc]
    have := ih { c with op_queue := c.op_queue ++ [op] } hc
    simp only [sendAll, hsend] at *
    refine ⟨this.1, by simp [this.2.1], this.2.2.1, ?_⟩
    intro r hr
    rcases List.mem_cons.mp hr with hr | hr
    · exact hr
    · exact this.2.2.2 r hr

/-! ## Claim theorems -/

/-- C4 counterexample: the claim says at most one node ever has
parent = None, but after inserting two parentless nodes (ids 0 and 1)
both nodes are present and both have parent = None. -/
theorem claim_C4_counterexample :
    ((((AgentHierarchy.new.add_agent 0 AgentRole.Worker none).add_agent 1
        AgentRole.Worker none).parent 0 = none) ∧
     (((AgentHierarchy.new.add_agent 0 AgentRole.Worker none).add_agent 1
        AgentRole.Worker none).parent 1 = none) ∧
     (lookupA ((AgentHierarchy.new.add_agent 0 AgentRole.Worker none).add_agent 1
        AgentRole.Worker none).nodes 0).isSome = true ∧
     (lookupA ((AgentHierarchy.new.add_agent 0 AgentRole.Worker none).add_agent 1
        AgentRole.Worker none).nodes 1).isSome = true ∧
     (0 : Nat) ≠ 1) := by
  decide

/-- C4 (amended): at most one node is the designated root: the root
pointer holds at most one id and every parentless insert overwrites it
with the new id (which indeed has parent = None); but a prior parentless
node is neither removed nor reparented, so several nodes may have
parent = None at once. -/
theorem claim_C4 (h : AgentHierarchy) (id : Nat) (role : AgentRole) :
    ((h.add_agent id role none).root = some id) ∧
    ((h.add_agent id role none).parent id = none) := by
  constructor
  · rfl
  · simp [AgentHierarchy.add_agent, AgentHierarchy.parent, lookupA_insertA_self]

/-- C5 counterexample: the claim says Terminated is absorbing for every
Agent operation, but set_status has no guard: on a Terminated agent it
sets the status to Running, which differs from Terminated. -/
theorem claim_C5_counterexample :
    ((({ Agent.new 0 ⟨AgentRole.Worker, false, none⟩ none with
          status := AgentStatus.Terminated : Agent }.set_status
        AgentStatus.Running 0).1.status = AgentStatus.Running) ∧
     AgentStatus.Running ≠ AgentStatus.Terminated) := by
  decide

/-- C5 (amended): terminate always leaves the status Terminated, but
Terminated is not absorbing at the Agent-operation level: set_status
unconditionally overwrites the status field with its argument whatever
the previous status was, so a direct set_status call can move a
Terminated agent to any status. -/
theorem claim_C5 (a : Agent) (st : AgentStatus) (subId : Nat) (reason : String) :
    ((a.terminate subId reason).1.status = AgentStatus.Terminated) ∧
    ((a.set_status st subId).1.status = st) :=
  ⟨rfl, rfl⟩

/-- C9 counterexample: the claim says a single terminate call emits
exactly one event, but terminate first routes through set_status (one
AgentStatusChanged event) and then emits AgentTerminated, so it emits
two events. -/
theorem claim_C9_counterexample :
    (((Agent.new 5 ⟨AgentRole.Worker, true, none⟩ none).terminate 7 "bye").2 =
      [Event.AgentStatusChanged 7 5 AgentStatus.Terminated,
       Event.AgentTerminated 7 5 "bye"]) ∧
    (((Agent.new 5 ⟨AgentRole.Worker, true, none⟩ none).terminate 7 "bye").2.length = 2) ∧
    (2 : Nat) ≠ 1 := by
  refine ⟨rfl, rfl, by decide⟩

/-- C9 (amended): Agent operations mutate only the contracted fields and
emit exactly one event per status change and one per message, but a
terminate call emits exactly two events: the AgentStatusChanged event of
its internal transition to Terminated followed by one AgentTerminated
event; its only field mutation is the status field. -/
theorem claim_C9 (a : Agent) (st : AgentStatus) (subId : Nat)
    (reason content : String) (streaming : Bool) :
    ((a.set_status st subId).1 = { a with status := st }) ∧
    ((a.set_status st subId).2.length = 1) ∧
    ((a.emit_message subId content streaming).length = 1) ∧
    ((a.terminate subId reason).1 = { a with status := AgentStatus.Terminated }) ∧
    ((a.terminate subId reason).2 =
      [Event.AgentStatusChanged subId a.id AgentStatus.Terminated,
       Event.AgentTerminated subId a.id reason]) :=
  ⟨rfl, rfl, rfl, rfl, rfl⟩

/-- C10: the channel pair built by ChannelBuilder with any buffer size
is the very channel pair GoblinChannel::new returns: the buffer-size
setting is never read, and the built channel is unbounded (every send of
any number of operations succeeds and enqueues in order). -/
theorem claim_C10 (n : Nat) (ops : List Op) :
    ((ChannelBuilder.new.with_buffer_size n).build = GoblinChannel.new) ∧
    ((sendAll ((ChannelBuilder.new.with_buffer_size n).build) ops).1.op_queue = ops) ∧
    (∀ r ∈ (sendAll ((ChannelBuilder.new.with_buffer_size n).build) ops).2,
      r = Except.ok ()) := by
  have h := sendAll_open ops ((ChannelBuilder.new.with_buffer_size n).build) rfl
  exact ⟨rfl, by simpa using h.2.1, h.2.2.2⟩

/-- C8: depth is 0 for ids absent from the hierarchy and for the
parentless root node, and every node with a parent whose chain
terminates sits exactly one level below that parent. -/
theorem claim_C8 (h : AgentHierarchy) :
    (∀ k, lookupA h.nodes k = none → h.depth k = 0) ∧
    (∀ k n, lookupA h.nodes k = some n → n.parent = none → h.depth k = 0) ∧
    (∀ c n p, lookupA h.nodes c = some n → n.parent = some p →
      chainDoneF (h.nodes.length + 1) h c = true →
      h.depth c = h.depth p + 1) := by
  refine ⟨?_, ?_, ?_⟩
  · intro k hk
    simp [AgentHierarchy.depth, depthF, hk]
  · intro k n hk hp
    simp [AgentHierarchy.depth, depthF, hk, hp]
  · intro c n p hc hp hdone
    have hstep : chainDoneF h.nodes.length h p = true := by
      simp only [chainDoneF, hc, hp] at hdone
      exact hdone
    show depthF (h.nodes.length + 1) h c = depthF (h.nodes.length + 1) h p + 1
    rw [depthF_fuel_eq h h.nodes.length (h.nodes.length + 1) p (by omega) hstep]
    simp only [depthF, hc, hp]

/-- C8 witness: the three parts of claim_C8 at a concrete two-node
hierarchy (node 1 is the child of root node 0; id 5 is absent). -/
theorem claim_C8_witness :
    (AgentHierarchy.depth
      { nodes := [(0, ⟨0, AgentRole.Orchestrator, none, [1]⟩),
                  (1, ⟨1, AgentRole.Worker, some 0, []⟩)], root := some 0 } 5 = 0) ∧
    (AgentHierarchy.depth
      { nodes := [(0, ⟨0, AgentRole.Orchestrator, none, [1]⟩),
                  (1, ⟨1, AgentRole.Worker, some 0, []⟩)], root := some 0 } 0 = 0) ∧
    (AgentHierarchy.depth
      { nodes := [(0, ⟨0, AgentRole.Orchestrator, none, [1]⟩),
                  (1, ⟨1, AgentRole.Worker, some 0, []⟩)], root := some 0 } 1 =
     AgentHierarchy.depth
      { nodes := [(0, ⟨0, AgentRole.Orchestrator, none, [1]⟩),
                  (1, ⟨1, AgentRole.Worker, some 0, []⟩)], root := some 0 } 0 + 1) := by
  refine ⟨(claim_C8 _).1 5 (by decide),
    (claim_C8 _).2.1 0 ⟨0, AgentRole.Orchestrator, none, [1]⟩ (by decide) rfl,
    (claim_C8 _).2.2 1 ⟨1, AgentRole.Worker, some 0, []⟩ 0 (by decide) rfl (by decide)⟩

/-- State of the agent table along iterated spawns under parent id 0:
starting from a one-agent table holding the root (config cfg with spawn
enabled and cap N) and fresh-id counter 1, after k ≤ N spawns the root
has k children, the table has k + 1 entries, and the counter is
k + 1. -/
theorem spawnIter_spec (ccfg cfg : AgentConfig) (N subId2 : Nat) (s : Session)
    (hcfg : cfg.can_spawn = true) (hmax : cfg.max_children = some N)
    (a0 : Agent) (ha0 : lookupA s.agents 0 = some a0) (hacfg : a0.config = cfg)
    (hach : a0.children.length = 0) (hlen : s.agents.length = 1)
    (hnext : s.next_id = 1) (hfresh : ∀ key ∈ keysA s.agents, key < s.next_id) :
    ∀ k, k ≤ N →
    ∃ a, lookupA (spawnIter s ccfg (some 0) subId2 k).agents 0 = some a ∧
      a.config = cfg ∧ a.children.length = k ∧
      (spawnIter s ccfg (some 0) subId2 k).agents.length = k + 1 ∧
      (spawnIter s ccfg (some 0) subId2 k).next_id = k + 1 ∧
      (∀ key ∈ keysA (spawnIter s ccfg (some 0) subId2 k).agents,
        key < (spawnIter s ccfg (some 0) subId2 k).next_id) := by
  intro k
  induction k with
  | zero =>
    intro _
    exact ⟨a0, ha0, hacfg, hach, hlen, hnext, hfresh⟩
  | succ k ih =>
    intro hk
    obtain ⟨a, ha, hacfg', hach', hlen', hnext', hfresh'⟩ := ih (by omega)
    have hcan : a.can_spawn = true := by
      rw [Agent.can_spawn, hacfg', hcfg, hmax]
      simp only [Bool.not_true, Bool.false_eq_true, if_false]
      rw [hach']
      simp only [decide_eq_true_eq]
      omega
    have hne0 : (spawnIter s ccfg (some 0) subId2 k).next_id ≠ 0 := by omega
    have hfreshk : (spawnIter s ccfg (some 0) subId2 k).next_id ∉
        keysA (spawnIter s ccfg (some 0) subId2 k).agents := by
      intro hmem
      exact absurd (hfresh' _ hmem) (by omega)
    have hstep : spawnIter s ccfg (some 0) subId2 (k + 1) =
        ((spawnIter s ccfg (some 0) subId2 k).spawn_agent_insert ccfg (some 0) subId2).1 := by
      show ((spawnIter s ccfg (some 0) subId2 k).spawn_agent ccfg (some 0) subId2).1 = _
      rw [Session.spawn_agent]
      simp only [ha, hcan]
      rfl
    rw [hstep]
    simp only [Session.spawn_agent_insert]
    refine ⟨a.add_child (spawnIter s ccfg (some 0) subId2 k).next_id, ?_, ?_, ?_, ?_, ?_, ?_⟩
    · rw [lookupA_modifyA_self, lookupA_insertA_ne _ _ _ _ (fun hh => hne0 hh.symm), ha]
      rfl
    · exact hacfg'
    · simp [Agent.add_child, hach']
    · rw [length_modifyA, length_insertA_of_not_mem _ _ _ hfreshk, hlen']
    · rw [hnext']
    · intro key hmem
      rw [keysA_modifyA, keysA_insertA] at hmem
      rcases List.mem_append.mp hmem with hmem | hmem

      · have := hfresh' key (List.mem_of_mem_filter hmem)
        omega
      · rw [List.mem_singleton] at hmem
        omega

/-- C6: handling ConfigureSession with max-parallel-agents N succeeds,
registers a new session whose table holds exactly the auto-spawned root
agent (role Orchestrator, spawn enabled, children cap some N), emits the
SessionConfigured event (after the root AgentSpawned event); from that
session, the k-th spawn under the root succeeds for every k < N, and the
spawn after N existing children is rejected with SpawnDenied, changing
nothing and emitting no event. -/
theorem claim_C6 (o : Orchestrator) (N subId subId2 subId3 : Nat) (ccfg : AgentConfig) :
    ((o.configure_session ⟨N⟩ subId).2.2 = Except.ok o.next_session_id) ∧
    (lookupA (o.configure_session ⟨N⟩ subId).1.sessions o.next_session_id =
      some (((Session.new o.next_session_id ⟨N⟩).spawn_agent
        ⟨AgentRole.Orchestrator, true, some N⟩ none subId).1)) ∧
    ((((Session.new o.next_session_id ⟨N⟩).spawn_agent
        ⟨AgentRole.Orchestrator, true, some N⟩ none subId).1).agents =
      [(0, Agent.new 0 ⟨AgentRole.Orchestrator, true, some N⟩ none)]) ∧
    ((Agent.new 0 ⟨AgentRole.Orchestrator, true, some N⟩ none).role =
      AgentRole.Orchestrator) ∧
    ((Agent.new 0 ⟨AgentRole.Orchestrator, true, some N⟩ none).config.can_spawn = true) ∧
    ((Agent.new 0 ⟨AgentRole.Orchestrator, true, some N⟩ none).config.max_children =
      some N) ∧
    ((o.configure_session ⟨N⟩ subId).2.1 =
      [Event.AgentSpawned subId 0 none AgentRole.Orchestrator
        ⟨AgentRole.Orchestrator, true, some N⟩,
       Event.SessionConfigured subId o.next_session_id]) ∧
    (∀ k, k < N →
      ((spawnIter (((Session.new o.next_session_id ⟨N⟩).spawn_agent
          ⟨AgentRole.Orchestrator, true, some N⟩ none subId).1) ccfg (some 0) subId2
            k).spawn_agent ccfg (some 0) subId2).2.2 = Except.ok (k + 1)) ∧
    ((spawnIter (((Session.new o.next_session_id ⟨N⟩).spawn_agent
        ⟨AgentRole.Orchestrator, true, some N⟩ none subId).1) ccfg (some 0) subId2
          N).spawn_agent ccfg (some 0) subId3 =
      (spawnIter (((Session.new o.next_session_id ⟨N⟩).spawn_agent
          ⟨AgentRole.Orchestrator, true, some N⟩ none subId).1) ccfg (some 0) subId2 N,
       [], Except.error (GoblinError.SpawnDenied "Parent agent cannot spawn more children"))) := by
  have hspec := spawnIter_spec ccfg ⟨AgentRole.Orchestrator, true, some N⟩ N subId2
    (((Session.new o.next_session_id ⟨N⟩).spawn_agent
      ⟨AgentRole.Orchestrator, true, some N⟩ none subId).1)
    rfl rfl (Agent.new 0 ⟨AgentRole.Orchestrator, true, some N⟩ none) rfl rfl rfl rfl rfl
    (by
      intro key hmem
      have hkeys : keysA (((Session.new o.next_session_id ⟨N⟩).spawn_agent
          ⟨AgentRole.Orchestrator, true, some N⟩ none subId).1).agents = [0] := rfl
      have hnid : (((Session.new o.next_session_id ⟨N⟩).spawn_agent
          ⟨AgentRole.Orchestrator, true, some N⟩ none subId).1).next_id = 1 := rfl
      rw [hkeys] at hmem
      rw [hnid]
      rw [List.mem_singleton] at hmem
      omega)
  refine ⟨rfl, ?_, rfl, rfl, rfl, rfl, rfl, ?_, ?_⟩
  · have h1 : (o.configure_session ⟨N⟩ subId).1.sessions =
        insertA o.sessions o.next_session_id
          (((Session.new o.next_session_id ⟨N⟩).spawn_agent
            ⟨AgentRole.Orchestrator, true, some N⟩ none subId).1) := rfl
    rw [h1, lookupA_insertA_self]
  · intro k hk
    obtain ⟨a, ha, hacfg', hach', _, hnext', _⟩ := hspec k (by omega)
    have hcan : a.can_spawn = true := by
      rw [Agent.can_spawn, hacfg']
      simp [hach', hk]
    rw [Session.spawn_agent]
    simp only [ha, hcan]
    simp [Session.spawn_agent_insert, hnext']
  · obtain ⟨a, ha, hacfg', hach', _, _, _⟩ := hspec N (by omega)
    have hcan : a.can_spawn = false := by
      rw [Agent.can_spawn, hacfg']
      simp [hach']
    rw [Session.spawn_agent]
    simp only [ha, hcan]
    rfl

/-- C6 witness: claim_C6 at the empty orchestrator with cap 2 and a
concrete worker config. -/
theorem claim_C6_witness :
    ((Orchestrator.new.configure_session ⟨2⟩ 1).2.2 = Except.ok 0) ∧
    (lookupA (Orchestrator.new.configure_session ⟨2⟩ 1).1.sessions 0 =
      some (((Session.new 0 ⟨2⟩).spawn_agent
        ⟨AgentRole.Orchestrator, true, some 2⟩ none 1).1)) ∧
    ((((Session.new 0 ⟨2⟩).spawn_agent
        ⟨AgentRole.Orchestrator, true, some 2⟩ none 1).1).agents =
      [(0, Agent.new 0 ⟨AgentRole.Orchestrator, true, some 2⟩ none)]) ∧
    ((Agent.new 0 ⟨AgentRole.Orchestrator, true, some 2⟩ none).role =
      AgentRole.Orchestrator) ∧
    ((Agent.new 0 ⟨AgentRole.Orchestrator, true, some 2⟩ none).config.can_spawn = true) ∧
    ((Agent.new 0 ⟨AgentRole.Orchestrator, true, some 2⟩ none).config.max_children =
      some 2) ∧
    ((Orchestrator.new.configure_session ⟨2⟩ 1).2.1 =
      [Event.AgentSpawned 1 0 none AgentRole.Orchestrator
        ⟨AgentRole.Orchestrator, true, some 2⟩,
       Event.SessionConfigured 1 0]) ∧
    (∀ k, k < 2 →
      ((spawnIter (((Session.new 0 ⟨2⟩).spawn_agent
          ⟨AgentRole.Orchestrator, true, some 2⟩ none 1).1)
            ⟨AgentRole.Worker, false, none⟩ (some 0) 5 k).spawn_agent
        ⟨AgentRole.Worker, false, none⟩ (some 0) 5).2.2 = Except.ok (k + 1)) ∧
    ((spawnIter (((Session.new 0 ⟨2⟩).spawn_agent
        ⟨AgentRole.Orchestrator, true, some 2⟩ none 1).1)
          ⟨AgentRole.Worker, false, none⟩ (some 0) 5 2).spawn_agent
      ⟨AgentRole.Worker, false, none⟩ (some 0) 6 =
      (spawnIter (((Session.new 0 ⟨2⟩).spawn_agent
          ⟨AgentRole.Orchestrator, true, some 2⟩ none 1).1)
            ⟨AgentRole.Worker, false, none⟩ (some 0) 5 2,
       [], Except.error (GoblinError.SpawnDenied "Parent agent cannot spawn more children"))) :=
  claim_C6 Orchestrator.new 2 1 5 6 ⟨AgentRole.Worker, false, none⟩

/-- C7: with one active session whose current task is tid, Interrupt
with no task id emits exactly one TaskInterrupted event carrying tid,
returns ok, and clears the session's current task; an immediately
repeated Interrupt with no task id changes nothing and emits no
event. -/
theorem claim_C7 (o : Orchestrator) (sid tid subId subId2 : Nat) (sess : Session)
    (hs : o.sessions = [(sid, sess)]) (ht : sess.current_task = some tid) :
    ((o.handle_interrupt none subId).2.1 = [Event.TaskInterrupted subId tid]) ∧
    ((o.handle_interrupt none subId).2.2 = Except.ok ()) ∧
    ((o.handle_interrupt none subId).1.sessions =
      [(sid, sess.set_current_task none)]) ∧
    ((sess.set_current_task none).current_task = none) ∧
    ((o.handle_interrupt none subId).1.handle_interrupt none subId2 =
      ((o.handle_interrupt none subId).1, [], Except.ok ())) := by
  have hh : o.sessions.head? = some (sid, sess) := by rw [hs]; rfl
  have hins : insertA o.sessions sid (sess.set_current_task none) =
      [(sid, sess.set_current_task none)] := by
    rw [hs, insertA, eraseA]
    simp [List.filter_cons]
  have h1 : o.handle_interrupt none subId =
      ({ o with sessions := [(sid, sess.set_current_task none)] },
       [Event.TaskInterrupted subId tid], Except.ok ()) := by
    simp only [Orchestrator.handle_interrupt, hh, Option.orElse, ht, hins]
  have h2 : ({ o with sessions := [(sid, sess.set_current_task none)] } :
      Orchestrator).handle_interrupt none subId2 =
      ({ o with sessions := [(sid, sess.set_current_task none)] }, [], Except.ok ()) := by
    simp only [Orchestrator.handle_interrupt, Option.orElse]
    rfl
  rw [h1]
  exact ⟨rfl, rfl, rfl, rfl, h2⟩

/-- C7 witness: claim_C7 at a concrete orchestrator holding one session
(id 3) whose current task is 9. -/
theorem claim_C7_witness :
    ((Orchestrator.handle_interrupt
        { sessions := [(3, { Session.new 3 ⟨1⟩ with current_task := some 9 })],
          next_session_id := 4, next_task_id := 1 } none 11).2.1 =
      [Event.TaskInterrupted 11 9]) ∧
    ((Orchestrator.handle_interrupt
        { sessions := [(3, { Session.new 3 ⟨1⟩ with current_task := some 9 })],
          next_session_id := 4, next_task_id := 1 } none 11).2.2 = Except.ok ()) ∧
    ((Orchestrator.handle_interrupt
        { sessions := [(3, { Session.new 3 ⟨1⟩ with current_task := some 9 })],
          next_session_id := 4, next_task_id := 1 } none 11).1.sessions =
      [(3, Session.set_current_task
            { Session.new 3 ⟨1⟩ with current_task := some 9 } none)]) ∧
    ((Session.set_current_task
        { Session.new 3 ⟨1⟩ with current_task := some 9 } none).current_task = none) ∧
    ((Orchestrator.handle_interrupt
        { sessions := [(3, { Session.new 3 ⟨1⟩ with current_task := some 9 })],
          next_session_id := 4, next_task_id := 1 } none 11).1.handle_interrupt none 12 =
      ((Orchestrator.handle_interrupt
          { sessions := [(3, { Session.new 3 ⟨1⟩ with current_task := some 9 })],
            next_session_id := 4, next_task_id := 1 } none 11).1, [], Except.ok ())) :=
  claim_C7 _ 3 9 11 12 _ rfl rfl

/-! ## Subtree lemmas -/

theorem InSubtree_trans (h : AgentHierarchy) (x y z : Nat)
    (hxy : InSubtree h x y) (hyz : InSubtree h y z) : InSubtree h x z := by
  induction hyz with
  | base => exact hxy
  | step c p hc _ ih => exact InSubtree.step c p hc ih

theorem parent_isSome_self (h : AgentHierarchy) (c p : Nat)
    (hc : h.parent c = some p) : (lookupA h.nodes c).isSome = true := by
  rw [AgentHierarchy.parent] at hc
  cases hl : lookupA h.nodes c with
  | none => rw [hl] at hc; exact absurd hc (by simp)
  | some node => simp [hl]

theorem InSubtree_node_isSome (h : AgentHierarchy) (x k : Nat)
    (hk : InSubtree h x k) (hne : k ≠ x) :
    (lookupA h.nodes k).isSome = true := by
  cases hk with
  | base => exact absurd rfl hne
  | step _ p hc _ => exact parent_isSome_self h k p hc

theorem children_mem_isSome (h : AgentHierarchy) (p c : Nat)
    (hc : c ∈ h.children p) : (lookupA h.nodes p).isSome = true := by
  rw [AgentHierarchy.children] at hc
  cases hl : lookupA h.nodes p with
  | none => rw [hl] at hc; simp at hc
  | some node => simp [hl]

theorem InSubtree_decompose (h : AgentHierarchy) (x k : Nat)
    (hk : InSubtree h x k) :
    k = x ∨ ∃ c, h.parent c = some x ∧ InSubtree h c k := by
  induction hk with
  | base => exact Or.inl rfl
  | step c p hc hp ih =>
    rcases ih with rfl | ⟨c', hc', hk'⟩
    · exact Or.inr ⟨c, hc, InSubtree.base⟩
    · exact Or.inr ⟨c', hc', InSubtree.step c p hc hk'⟩

theorem InSubtree_linear (h : AgentHierarchy) (c c' k : Nat)
    (h1 : InSubtree h c k) : InSubtree h c' k →
    InSubtree h c c' ∨ InSubtree h c' c := by
  induction h1 with
  | base => exact fun h2 => Or.inr h2
  | step e p he hp ih =>
    intro h2
    cases h2 with
    | base => exact Or.inl (InSubtree.step c' p he hp)
    | step _ p' he' hp' =>
      rw [he] at he'
      injection he' with hpe
      subst hpe
      exact ih hp'

theorem sibling_not_InSubtree (h : AgentHierarchy) (px c c' : Nat)
    (hacyc : Acyc h) (hc : h.parent c = some px) (hc' : h.parent c' = some px)
    (hne : c' ≠ c) : ¬ InSubtree h c c' := by
  intro hin
  cases hin with
  | base => exact hne rfl
  | step _ p he hp =>
    rw [hc'] at he
    injection he with hpe
    subst hpe
    exact hacyc c px hc hp

theorem InSubtree_mono (h h' : AgentHierarchy)
    (hpar : ∀ e q, h'.parent e = some q → h.parent e = some q)
    (y k : Nat) (hk : InSubtree h' y k) : InSubtree h y k := by
  induction hk with
  | base => exact InSubtree.base
  | step c p hc _ ih => exact InSubtree.step c p (hpar c p hc) ih

theorem InSubtree_promote (h h' : AgentHierarchy) (R : Nat → Prop)
    (hpar : ∀ e q, h.parent e = some q → ¬ R e → h'.parent e = some q)
    (hRdown : ∀ k p, h.parent k = some p → R p → R k) :
    ∀ y k, InSubtree h y k → ¬ R k → InSubtree h' y k := by
  intro y k hk
  induction hk with
  | base => exact fun _ => InSubtree.base
  | step c p hc hp ih =>
    intro hR
    have hRp : ¬ R p := fun hRp => hR (hRdown c p hc hRp)
    exact InSubtree.step c p (hpar c p hc hR) (ih hRp)

/-! ## Content lemmas for AgentHierarchy.remove_agent -/

theorem remove_agent_lookup_self (h : AgentHierarchy) (x : Nat) (nx : HierarchyNode)
    (hx : lookupA h.nodes x = some nx) :
    lookupA ((h.remove_agent x).1).nodes x = none := by
  simp only [AgentHierarchy.remove_agent, hx]
  cases hp : nx.parent with
  | none =>
    simp only [hp]
    exact lookupA_eraseA_self _ _
  | some q =>
    simp only [hp]
    by_cases hqx : q = x
    · subst hqx
      rw [lookupA_modifyA_self, lookupA_eraseA_self]
      rfl
    · rw [lookupA_modifyA_ne _ _ _ _ (fun hh => hqx hh.symm)]
      exact lookupA_eraseA_self _ _

theorem remove_agent_lookup_parent (h : AgentHierarchy) (x q : Nat)
    (nx : HierarchyNode) (hx : lookupA h.nodes x = some nx)
    (hq : nx.parent = some q) (hqx : q ≠ x) :
    lookupA ((h.remove_agent x).1).nodes q =
      (lookupA h.nodes q).map
        (fun n => { n with children := n.children.filter (fun c => c != x) }) := by
  simp only [AgentHierarchy.remove_agent, hx, hq]
  rw [lookupA_modifyA_self, lookupA_eraseA_ne _ _ _ hqx]

theorem remove_agent_lookup_other (h : AgentHierarchy) (x k : Nat)
    (nx : HierarchyNode) (hx : lookupA h.nodes x = some nx)
    (hk : k ≠ x) (hk2 : nx.parent ≠ some k) :
    lookupA ((h.remove_agent x).1).nodes k = lookupA h.nodes k := by
  simp only [AgentHierarchy.remove_agent, hx]
  cases hp : nx.parent with
  | none =>
    simp only [hp]
    exact lookupA_eraseA_ne _ _ _ hk
  | some q =>
    simp only [hp]
    have hqk : k ≠ q := fun hh => hk2 (by rw [hp, hh])
    rw [lookupA_modifyA_ne _ _ _ _ hqk]
    exact lookupA_eraseA_ne _ _ _ hk

theorem remove_agent_nodup (h : AgentHierarchy) (x : Nat)
    (hnd : (keysA h.nodes).Nodup) :
    (keysA ((h.remove_agent x).1).nodes).Nodup := by
  cases hx : lookupA h.nodes x with
  | none =>
    simp only [AgentHierarchy.remove_agent, hx]
    exact hnd
  | some nx =>
    simp only [AgentHierarchy.remove_agent, hx]
    cases hp : nx.parent with
    | none =>
      simp only [hp]
      exact keysA_eraseA_nodup _ _ hnd
    | some q =>
      simp only [hp]
      rw [show keysA (modifyA (eraseA h.nodes x) q
        (fun n => { n with children := n.children.filter (fun c => c != x) })) =
        keysA (eraseA h.nodes x) from keysA_modifyA _ _ _]
      exact keysA_eraseA_nodup _ _ hnd

/-! ## Glue lemmas for the terminate characterization -/

theorem bool_eq_of_iff (a b : Bool) (h : a = true ↔ b = true) : a = b := by
  cases a <;> cases b <;> simp_all

theorem tmemS_def (s : Session) (k : Nat) :
    tmemS s k = (lookupA s.agents k).isSome := rfl

theorem hmemH_def (h : AgentHierarchy) (k : Nat) :
    hmemH h k = (lookupA h.nodes k).isSome := rfl

theorem termAgentF_miss (fuel : Nat) (s : Session) (x subId : Nat) (reason : String)
    (hx : lookupA s.agents x = none) :
    termAgentF fuel s x reason subId =
      (s, [], Except.error (GoblinError.AgentNotFound x)) := by
  cases fuel with
  | zero => rw [termAgentF]
  | succ f => rw [termAgentF, hx]

theorem no_parent_fresh (h : AgentHierarchy) (nid : Nat)
    (hnp : ∀ e, h.parent e ≠ some nid) :
    ∀ y, InSubtree h nid y → y = nid := by
  intro y hy
  induction hy with
  | base => rfl
  | step c p hc hp ih => exact absurd (ih ▸ hc) (hnp c)

theorem InSubtree_drop_fresh (h h' : AgentHierarchy) (nid : Nat)
    (hnp : ∀ e, h'.parent e ≠ some nid)
    (hagree : ∀ e q, e ≠ nid → h'.parent e = some q → h.parent e = some q) :
    ∀ y k, InSubtree h' y k → y ≠ nid → k ≠ nid → InSubtree h y k := by
  intro y k hk
  induction hk with
  | base => exact fun _ _ => InSubtree.base
  | step c p hc hp ih =>
    intro hy hkne
    have hpne : p ≠ nid := fun hh => hnp c (hh ▸ hc)
    exact InSubtree.step c p (hagree c p hkne hc) (ih hy hpne)

theorem termSpec_parent_back (s : Session) (x : Nat) (a : Agent) (s' : Session)
    (hTS : TermSpec s x a s') :
    ∀ e q, s'.hierarchy.parent e = some q → s.hierarchy.parent e = some q := by
  intro e q he
  have hmem' : hmemH s'.hierarchy e = true := by
    rw [hmemH]
    exact parent_isSome_self _ _ _ he
  have hm := (hTS.2.1 e).mp hmem'
  by_cases hpe : a.parent_id = some e
  · have hc := (hTS.2.2.2.1 e hpe).2
    rw [AgentHierarchy.parent, hc] at he
    rw [AgentHierarchy.parent]
    cases hl : lookupA s.hierarchy.nodes e with
    | none => rw [hl] at he; exact absurd he (by simp)
    | some n => rw [hl] at he; simpa using he
  · have hc := (hTS.2.2.1 e hm.2 hpe).2
    rw [AgentHierarchy.parent, hc] at he
    rw [AgentHierarchy.parent]
    exact he

theorem termSpec_parent_fwd (s : Session) (x : Nat) (a : Agent) (s' : Session)
    (hTS : TermSpec s x a s') :
    ∀ e q, s.hierarchy.parent e = some q → ¬ InSubtree s.hierarchy x e →
      s'.hierarchy.parent e = some q := by
  intro e q he hni
  by_cases hpe : a.parent_id = some e
  · have hc := (hTS.2.2.2.1 e hpe).2
    rw [AgentHierarchy.parent, hc]
    rw [AgentHierarchy.parent] at he
    cases hl : lookupA s.hierarchy.nodes e with
    | none => rw [hl] at he; exact absurd he (by simp)
    | some n => rw [hl] at he; simpa using he
  · have hc := (hTS.2.2.1 e hni hpe).2
    rw [AgentHierarchy.parent, hc]
    rw [AgentHierarchy.parent] at he
    exact he

theorem termListSpec_parent_back (s : Session) (px : Nat) (cs : List Nat) (s' : Session)
    (hTL : TermListSpec s px cs s') :
    ∀ e q, s'.hierarchy.parent e = some q → s.hierarchy.parent e = some q := by
  intro e q he
  have hmem' : hmemH s'.hierarchy e = true := by
    rw [hmemH]
    exact parent_isSome_self _ _ _ he
  have hm := (hTL.2.1 e).mp hmem'
  by_cases hpe : e = px
  · subst hpe
    have hc := hTL.2.2.2.1.2
    rw [AgentHierarchy.parent, hc] at he
    rw [AgentHierarchy.parent]
    cases hl : lookupA s.hierarchy.nodes e with
    | none => rw [hl] at he; exact absurd he (by simp)
    | some n => rw [hl] at he; simpa using he
  · have hc := (hTL.2.2.1 e hm.2 hpe).2
    rw [AgentHierarchy.parent, hc] at he
    rw [AgentHierarchy.parent]
    exact he

theorem tmem_of_lookup {s : Session} {k : Nat} {a' : Agent}
    (h : lookupA s.agents k = some a') : tmemS s k = true := by
  show (lookupA s.agents k).isSome = true
  rw [h]
  rfl

theorem hmem_of_lookup {h : AgentHierarchy} {k : Nat} {n' : HierarchyNode}
    (hl : lookupA h.nodes k = some n') : hmemH h k = true := by
  show (lookupA h.nodes k).isSome = true
  rw [hl]
  rfl

theorem children_eq_node (h : AgentHierarchy) (k : Nat) (n : HierarchyNode)
    (hl : lookupA h.nodes k = some n) : h.children k = n.children := by
  rw [AgentHierarchy.children, hl]
  rfl

theorem parent_eq_node (h : AgentHierarchy) (k : Nat) (n : HierarchyNode)
    (hl : lookupA h.nodes k = some n) : h.parent k = n.parent := by
  rw [AgentHierarchy.parent, hl]
  rfl

theorem InSubtree_step_inv (h : AgentHierarchy) (x e p : Nat)
    (he : InSubtree h x e) (hne : e ≠ x) (hp : h.parent e = some p) :
    InSubtree h x p := by
  cases he with
  | base => exact absurd rfl hne
  | step _ p' hc' hp' =>
    rw [hp] at hc'
    injection hc' with hh
    subst hh
    exact hp'

theorem remove_child_id (a : Agent) (cid : Nat) :
    ((a.remove_child cid).1).id = a.id := by
  rw [Agent.remove_child]
  split <;> rfl

theorem remove_child_parent (a : Agent) (cid : Nat) :
    ((a.remove_child cid).1).parent_id = a.parent_id := by
  rw [Agent.remove_child]
  split <;> rfl

theorem remove_child_children (a : Agent) (cid : Nat) (hnd : a.children.Nodup) :
    ((a.remove_child cid).1).children = a.children.filter (fun c => c != cid) := by
  rw [Agent.remove_child]
  split
  · show a.children.erase cid = _
    rw [List.Nodup.erase_eq_filter hnd]
  · next hcon =>
    show a.children = _
    symm
    apply List.filter_eq_self.mpr
    intro b hb
    have hbne : b ≠ cid := by
      intro heq
      subst heq
      exact hcon (List.elem_eq_true_of_mem hb)
    simpa using hbne

theorem termListSpec_parent_fwd (s : Session) (px : Nat) (cs : List Nat) (s' : Session)
    (hTL : TermListSpec s px cs s') :
    ∀ e q, s.hierarchy.parent e = some q →
      (∀ c ∈ cs, ¬ InSubtree s.hierarchy c e) → s'.hierarchy.parent e = some q := by
  intro e q he hni
  by_cases hpe : e = px
  · subst hpe
    have hc := hTL.2.2.2.1.2
    rw [AgentHierarchy.parent, hc]
    rw [AgentHierarchy.parent] at he
    cases hl : lookupA s.hierarchy.nodes e with
    | none => rw [hl] at he; exact absurd he (by simp)
    | some n => rw [hl] at he; simpa using he
  · have hc := (hTL.2.2.1 e hni hpe).2
    rw [AgentHierarchy.parent, hc]
    rw [AgentHierarchy.parent] at he
    exact he

/-- The transient invariant survives one TermSpec-shaped transformation:
this is the invariant-restoration argument shared by every step of the
cascading termination. -/
theorem Mid_of_TermSpec (s : Session) (x : Nat) (a : Agent) (s' : Session)
    (hMid : Mid s) (hx : lookupA s.agents x = some a)
    (hTS' : TermSpec s x a s') : Mid s' := by
  obtain ⟨hts1, hts2, hts3, hts4, ⟨hnd1, hnd2⟩, hlen, hmisc⟩ := hTS'
  have hTS : TermSpec s x a s' :=
    ⟨hts1, hts2, hts3, hts4, ⟨hnd1, hnd2⟩, hlen, hmisc⟩
  have hhx : (lookupA s.hierarchy.nodes x).isSome = true :=
    hMid.t_sub_h x (by rw [hx]; rfl)
  obtain ⟨nx, hnx⟩ := Option.isSome_iff_exists.mp hhx
  have haparent : a.parent_id = nx.parent := hMid.aparent x a nx hx hnx
  have hparx : s.hierarchy.parent x = a.parent_id := by
    rw [parent_eq_node s.hierarchy x nx hnx, haparent]
  have hq_not : ∀ q, a.parent_id = some q → ¬ InSubtree s.hierarchy x q := by
    intro q hq
    exact hMid.acyc x q (by rw [hparx, hq])
  have hem : ∀ e k, s.hierarchy.parent e = some k → ¬ InSubtree s.hierarchy x k →
      e ≠ x → ¬ InSubtree s.hierarchy x e := by
    intro e k hpe hnk hne hin
    exact hnk (InSubtree_step_inv s.hierarchy x e k hin hne hpe)
  have hex : ∀ e k, s.hierarchy.parent e = some k → a.parent_id ≠ some k → e ≠ x := by
    intro e k hpe hak heq
    subst heq
    exact hak (hparx ▸ hpe)
  refine ⟨hnd1, hnd2, ?_, ?_, ?_, ?_, ?_, ?_, ?_⟩
  · -- t_sub_h
    intro k hk
    obtain ⟨ht, hni⟩ := (hts1 k).mp hk
    exact (hts2 k).mpr ⟨hMid.t_sub_h k ht, hni⟩
  · -- agent_id_eq
    intro k a' hk'
    obtain ⟨ht, hni⟩ := (hts1 k).mp (tmem_of_lookup hk')
    by_cases hpk : a.parent_id = some k
    · have hk2 : (lookupA s.agents k).map (fun p => (p.remove_child x).1) = some a' := by
        rw [← (hts4 k hpk).1]
        exact hk'
      obtain ⟨a₀, ha₀, hfa⟩ := Option.map_eq_some'.mp hk2
      rw [← hfa, remove_child_id]
      exact hMid.agent_id_eq k a₀ ha₀
    · rw [(hts3 k hni hpk).1] at hk'
      exact hMid.agent_id_eq k a' hk'
  · -- achildren
    intro k a' n' hk' hn'
    obtain ⟨ht, hni⟩ := (hts1 k).mp (tmem_of_lookup hk')
    by_cases hpk : a.parent_id = some k
    · have hk2 : (lookupA s.agents k).map (fun p => (p.remove_child x).1) = some a' := by
        rw [← (hts4 k hpk).1]
        exact hk'
      obtain ⟨a₀, ha₀, hfa⟩ := Option.map_eq_some'.mp hk2
      have hn2 : (lookupA s.hierarchy.nodes k).map
          (fun n => { n with children := n.children.filter (fun c => c != x) }) = some n' := by
        rw [← (hts4 k hpk).2]
        exact hn'
      obtain ⟨n₀, hn₀, hfn⟩ := Option.map_eq_some'.mp hn2
      have hold : a₀.children = n₀.children.filter (fun c => tmemS s c) :=
        hMid.achildren k a₀ n₀ ha₀ hn₀
      have hnd0 : n₀.children.Nodup := hMid.hc_nodup k n₀ hn₀
      have hnda : a₀.children.Nodup := by
        rw [hold]
        exact hnd0.filter _
      have hLHS : a'.children =
          (n₀.children.filter (fun c => tmemS s c)).filter (fun c => c != x) := by
        rw [← hfa, remove_child_children a₀ x hnda, hold]
      have hRHS : n'.children = n₀.children.filter (fun c => c != x) := by
        rw [← hfn]
      rw [hLHS, hRHS, List.filter_filter, List.filter_filter]
      apply List.filter_congr
      intro e he
      by_cases hexx : e = x
      · subst hexx
        simp
      · have hpe : s.hierarchy.parent e = some k := by
          apply (hMid.child_iff k e).mp
          rw [children_eq_node s.hierarchy k n₀ hn₀]
          exact he
        have hnie : ¬ InSubtree s.hierarchy x e := hem e k hpe (hq_not k hpk) hexx
        have htme : tmemS s' e = tmemS s e := by
          apply bool_eq_of_iff
          constructor
          · intro h'
            exact ((hts1 e).mp h').1
          · intro h'
            exact (hts1 e).mpr ⟨h', hnie⟩
        simp [hexx, htme, Bool.and_comm]
    · rw [(hts3 k hni hpk).1] at hk'
      rw [(hts3 k hni hpk).2] at hn'
      have hold := hMid.achildren k a' n' hk' hn'
      rw [hold]
      apply List.filter_congr
      intro e he
      have hpe : s.hierarchy.parent e = some k := by
        apply (hMid.child_iff k e).mp
        rw [children_eq_node s.hierarchy k n' hn']
        exact he
      have hnex : e ≠ x := hex e k hpe hpk
      have hnie : ¬ InSubtree s.hierarchy x e := hem e k hpe hni hnex
      apply bool_eq_of_iff
      constructor
      · intro h'
        exact (hts1 e).mpr ⟨h', hnie⟩
      · intro h'
        exact ((hts1 e).mp h').1
  · -- aparent
    intro k a' n' hk' hn'
    obtain ⟨ht, hni⟩ := (hts1 k).mp (tmem_of_lookup hk')
    by_cases hpk : a.parent_id = some k
    · have hk2 : (lookupA s.agents k).map (fun p => (p.remove_child x).1) = some a' := by
        rw [← (hts4 k hpk).1]
        exact hk'
      obtain ⟨a₀, ha₀, hfa⟩ := Option.map_eq_some'.mp hk2
      have hn2 : (lookupA s.hierarchy.nodes k).map
          (fun n => { n with children := n.children.filter (fun c => c != x) }) = some n' := by
        rw [← (hts4 k hpk).2]
        exact hn'
      obtain ⟨n₀, hn₀, hfn⟩ := Option.map_eq_some'.mp hn2
      rw [← hfa, remove_child_parent, ← hfn]
      exact hMid.aparent k a₀ n₀ ha₀ hn₀
    · rw [(hts3 k hni hpk).1] at hk'
      rw [(hts3 k hni hpk).2] at hn'
      exact hMid.aparent k a' n' hk' hn'
  · -- child_iff
    intro p c
    cases hl' : lookupA s'.hierarchy.nodes p with
    | none =>
      constructor
      · intro hc
        rw [AgentHierarchy.children, hl'] at hc
        simp at hc
      · intro hc
        have hpc := termSpec_parent_back s x a s' hTS c p hc
        have hcm : c ∈ s.hierarchy.children p := (hMid.child_iff p c).mpr hpc
        have hpm : (lookupA s.hierarchy.nodes p).isSome = true :=
          children_mem_isSome _ _ _ hcm
        have hnp' : ¬ (hmemH s'.hierarchy p = true) := by
          rw [hmemH, hl']
          simp
        have hinp : InSubtree s.hierarchy x p := by
          by_contra hni
          exact hnp' ((hts2 p).mpr ⟨hpm, hni⟩)
        have hinc : InSubtree s.hierarchy x c := InSubtree.step c p hpc hinp
        have hc' : hmemH s'.hierarchy c = true := by
          rw [hmemH]
          exact parent_isSome_self _ _ _ hc
        exact (((hts2 c).mp hc').2 hinc).elim
    | some n' =>
      obtain ⟨hpmem, hpni⟩ := (hts2 p).mp (hmem_of_lookup hl')
      rw [children_eq_node s'.hierarchy p n' hl']
      by_cases hpk : a.parent_id = some p
      · have hn2 : (lookupA s.hierarchy.nodes p).map
            (fun n => { n with children := n.children.filter (fun c => c != x) }) = some n' := by
          rw [← (hts4 p hpk).2]
          exact hl'
        obtain ⟨n₀, hn₀, hfn⟩ := Option.map_eq_some'.mp hn2
        have hch0 : s.hierarchy.children p = n₀.children :=
          children_eq_node _ _ _ hn₀
        have hnch : n'.children = n₀.children.filter (fun c => c != x) := by
          rw [← hfn]
        rw [hnch]
        constructor
        · intro hcmem
          rw [List.mem_filter] at hcmem
          obtain ⟨hc0, hcx⟩ := hcmem
          have hpc : s.hierarchy.parent c = some p := by
            apply (hMid.child_iff p c).mp
            rw [hch0]
            exact hc0
          have hcnex : c ≠ x := by simpa using hcx
          have hnic : ¬ InSubtree s.hierarchy x c := hem c p hpc hpni hcnex
          exact termSpec_parent_fwd s x a s' hTS c p hpc hnic
        · intro hc
          have hpc := termSpec_parent_back s x a s' hTS c p hc
          have hc0 : c ∈ n₀.children := by
            rw [← hch0]
            exact (hMid.child_iff p c).mpr hpc
          have hcmem' : hmemH s'.hierarchy c = true := by
            rw [hmemH]
            exact parent_isSome_self _ _ _ hc
          have hcnx : c ≠ x := by
            intro heq
            subst heq
            exact ((hts2 c).mp hcmem').2 InSubtree.base
          rw [List.mem_filter]
          exact ⟨hc0, by simpa using hcnx⟩
      · have heqn : lookupA s.hierarchy.nodes p = some n' := by
          rw [← (hts3 p hpni hpk).2]
          exact hl'
        have hch0 : s.hierarchy.children p = n'.children :=
          children_eq_node _ _ _ heqn
        constructor
        · intro hcmem
          have hpc : s.hierarchy.parent c = some p := by
            apply (hMid.child_iff p c).mp
            rw [hch0]
            exact hcmem
          have hcnex : c ≠ x := hex c p hpc hpk
          have hnic := hem c p hpc hpni hcnex
          exact termSpec_parent_fwd s x a s' hTS c p hpc hnic
        · intro hc
          have hpc := termSpec_parent_back s x a s' hTS c p hc
          rw [← hch0]
          exact (hMid.child_iff p c).mpr hpc
  · -- acyc
    intro k u hku hsub
    exact hMid.acyc k u (termSpec_parent_back s x a s' hTS k u hku)
      (InSubtree_mono s.hierarchy s'.hierarchy
        (termSpec_parent_back s x a s' hTS) k u hsub)
  · -- hc_nodup
    intro k n' hn'
    obtain ⟨hkm, hkni⟩ := (hts2 k).mp (hmem_of_lookup hn')
    by_cases hpk : a.parent_id = some k
    · have hn2 : (lookupA s.hierarchy.nodes k).map
          (fun n => { n with children := n.children.filter (fun c => c != x) }) = some n' := by
        rw [← (hts4 k hpk).2]
        exact hn'
      obtain ⟨n₀, hn₀, hfn⟩ := Option.map_eq_some'.mp hn2
      rw [← hfn]
      exact (hMid.hc_nodup k n₀ hn₀).filter _
    · rw [(hts3 k hkni hpk).2] at hn'
      exact hMid.hc_nodup k n' hn'

/-- The cascade over a children list of a dead parent px realizes
TermListSpec, assuming the single-agent characterization at the same
fuel. -/
theorem termChildren_of_termAgent (fuel : Nat) (hP : PAgent fuel) :
    ∀ cs s subId px, Mid s → s.agents.length ≤ fuel →
      lookupA s.agents px = none → cs.Nodup →
      (∀ c ∈ cs, tmemS s c = true ∧ s.hierarchy.parent c = some px) →
      (∀ c ∈ cs, ∀ e, InSubtree s.hierarchy c e → e ≠ c → tmemS s e = true) →
      TermListSpec s px cs (termChildrenF fuel cs s subId).1 := by
  intro cs
  induction cs with
  | nil =>
    intro s subId px hMid hlen hpx hnd hcs hlive
    rw [termChildrenF]
    refine ⟨?_, ?_, ?_, ⟨rfl, ?_⟩, ⟨hMid.ta_nodup, hMid.hn_nodup⟩,
      le_refl _, rfl, rfl, rfl, rfl⟩
    · intro k
      simp
    · intro k
      simp
    · intro k _ _
      exact ⟨rfl, rfl⟩
    · cases hl : lookupA s.hierarchy.nodes px with
      | none => rfl
      | some n =>
        have hfil : n.children.filter (fun c => !(List.contains ([] : List Nat) c)) =
            n.children := List.filter_eq_self.mpr (fun a _ => rfl)
        simp [hfil]
  | cons c cs ih =>
    intro s subId px hMid hlen hpx hnd hcs hlive
    have hstep : (termChildrenF fuel (c :: cs) s subId).1 =
        (termChildrenF fuel cs (termAgentF fuel s c "Parent terminated" subId).1 subId).1 := by
      rw [termChildrenF]
    rw [hstep]
    obtain ⟨hcns, hndcs⟩ := List.nodup_cons.mp hnd
    obtain ⟨htc, hpc⟩ := hcs c (List.mem_cons_self c cs)
    obtain ⟨a_c, hac⟩ := Option.isSome_iff_exists.mp htc
    have hHXc : ∀ e, InSubtree s.hierarchy c e → e ≠ c → tmemS s e = true :=
      hlive c (List.mem_cons_self c cs)
    obtain ⟨hok, hTS⟩ := hP s c "Parent terminated" subId a_c hMid hlen hac hHXc
    obtain ⟨hts1, hts2, hts3, hts4, ⟨hnd1t, hnd2t⟩, hlent, hctt, hntt, hidt, hcfgt⟩ := hTS
    have hTS : TermSpec s c a_c (termAgentF fuel s c "Parent terminated" subId).1 :=
      ⟨hts1, hts2, hts3, hts4, ⟨hnd1t, hnd2t⟩, hlent, hctt, hntt, hidt, hcfgt⟩
    have hMid1 : Mid (termAgentF fuel s c "Parent terminated" subId).1 :=
      Mid_of_TermSpec s c a_c _ hMid hac hTS
    have hhc : (lookupA s.hierarchy.nodes c).isSome = true := hMid.t_sub_h c htc
    obtain ⟨n_c, hn_c⟩ := Option.isSome_iff_exists.mp hhc
    have hacp : a_c.parent_id = some px := by
      rw [hMid.aparent c a_c n_c hac hn_c]
      rw [parent_eq_node s.hierarchy c n_c hn_c] at hpc
      exact hpc
    have hsib : ∀ c' ∈ cs, ¬ InSubtree s.hierarchy c c' := by
      intro c' hc'
      exact sibling_not_InSubtree s.hierarchy px c c' hMid.acyc hpc
        (hcs c' (List.mem_cons_of_mem c hc')).2
        (fun heq => hcns (heq ▸ hc'))
    have hsib' : ∀ c' ∈ cs, ¬ InSubtree s.hierarchy c' c := by
      intro c' hc'
      exact sibling_not_InSubtree s.hierarchy px c' c hMid.acyc
        (hcs c' (List.mem_cons_of_mem c hc')).2 hpc
        (fun heq => hcns (heq ▸ hc'))
    have hfwd := termSpec_parent_fwd s c a_c _ hTS
    have hback := termSpec_parent_back s c a_c _ hTS
    have hrefl : ∀ y k,
        InSubtree (termAgentF fuel s c "Parent terminated" subId).1.hierarchy y k →
        InSubtree s.hierarchy y k :=
      InSubtree_mono _ _ hback
    have hprom : ∀ y k, InSubtree s.hierarchy y k → ¬ InSubtree s.hierarchy c k →
        InSubtree (termAgentF fuel s c "Parent terminated" subId).1.hierarchy y k := by
      intro y k hk hnk
      refine InSubtree_promote s.hierarchy _ (fun e => InSubtree s.hierarchy c e)
        ?_ ?_ y k hk hnk
      · intro e q he hne
        exact hfwd e q he hne
      · intro k' p' hk' hp'
        exact InSubtree.step k' p' hk' hp'
    have hpx1 : lookupA (termAgentF fuel s c "Parent terminated" subId).1.agents px = none := by
      rw [← Option.not_isSome_iff_eq_none]
      intro hs
      have := ((hts1 px).mp hs).1
      rw [show tmemS s px = (lookupA s.agents px).isSome from rfl, hpx] at this
      simp at this
    have hcs1 : ∀ c' ∈ cs,
        tmemS (termAgentF fuel s c "Parent terminated" subId).1 c' = true ∧
        (termAgentF fuel s c "Parent terminated" subId).1.hierarchy.parent c' = some px := by
      intro c' hc'
      refine ⟨(hts1 c').mpr ⟨(hcs c' (List.mem_cons_of_mem c hc')).1, hsib c' hc'⟩, ?_⟩
      exact hfwd c' px (hcs c' (List.mem_cons_of_mem c hc')).2 (hsib c' hc')
    have hlive1 : ∀ c' ∈ cs, ∀ e,
        InSubtree (termAgentF fuel s c "Parent terminated" subId).1.hierarchy c' e →
        e ≠ c' → tmemS (termAgentF fuel s c "Parent terminated" subId).1 e = true := by
      intro c' hc' e hin hne
      have hin0 : InSubtree s.hierarchy c' e := hrefl c' e hin
      have htme : tmemS s e = true := hlive c' (List.mem_cons_of_mem c hc') e hin0 hne
      have hnce : ¬ InSubtree s.hierarchy c e := by
        intro hce
        rcases InSubtree_linear s.hierarchy c c' e hce hin0 with hc2 | hc2
        · exact hsib c' hc' hc2
        · exact hsib' c' hc' hc2
      exact (hts1 e).mpr ⟨htme, hnce⟩
    have hlen1 : (termAgentF fuel s c "Parent terminated" subId).1.agents.length ≤ fuel :=
      le_trans hlent hlen
    have hTL := ih (termAgentF fuel s c "Parent terminated" subId).1 subId px
      hMid1 hlen1 hpx1 hndcs hcs1 hlive1
    obtain ⟨htl1, htl2, htl3, ⟨htl4a, htl4b⟩, ⟨hnd1l, hnd2l⟩, hlenl, hctl, hntl, hidl, hcfgl⟩ := hTL
    have hiff : ∀ k, ¬ InSubtree s.hierarchy c k →
        ((∀ c' ∈ cs,
          ¬ InSubtree (termAgentF fuel s c "Parent terminated" subId).1.hierarchy c' k) ↔
         (∀ c' ∈ cs, ¬ InSubtree s.hierarchy c' k)) := by
      intro k hnc
      constructor
      · intro hall c' hc' hin0
        exact hall c' hc' (hprom c' k hin0 hnc)
      · intro hall c' hc' hin1
        exact hall c' hc' (hrefl c' k hin1)
    refine ⟨?_, ?_, ?_, ⟨?_, ?_⟩, ⟨hnd1l, hnd2l⟩, le_trans hlenl hlent, ?_, ?_, ?_, ?_⟩
    · intro k
      constructor
      · intro hk
        obtain ⟨h1, h2⟩ := (htl1 k).mp hk
        obtain ⟨h3, h4⟩ := (hts1 k).mp h1
        refine ⟨h3, ?_⟩
        intro c'' hc''
        rcases List.mem_cons.mp hc'' with rfl | hc''
        · exact h4
        · exact (hiff k h4).mp h2 c'' hc''
      · rintro ⟨h3, hall⟩
        have h4 : ¬ InSubtree s.hierarchy c k := hall c (List.mem_cons_self c cs)
        exact (htl1 k).mpr ⟨(hts1 k).mpr ⟨h3, h4⟩,
          (hiff k h4).mpr (fun c' hc' => hall c' (List.mem_cons_of_mem c hc'))⟩
    · intro k
      constructor
      · intro hk
        obtain ⟨h1, h2⟩ := (htl2 k).mp hk
        obtain ⟨h3, h4⟩ := (hts2 k).mp h1
        refine ⟨h3, ?_⟩
        intro c'' hc''
        rcases List.mem_cons.mp hc'' with rfl | hc''
        · exact h4
        · exact (hiff k h4).mp h2 c'' hc''
      · rintro ⟨h3, hall⟩
        have h4 : ¬ InSubtree s.hierarchy c k := hall c (List.mem_cons_self c cs)
        exact (htl2 k).mpr ⟨(hts2 k).mpr ⟨h3, h4⟩,
          (hiff k h4).mpr (fun c' hc' => hall c' (List.mem_cons_of_mem c hc'))⟩
    · intro k hall hkpx
      have h4 : ¬ InSubtree s.hierarchy c k := hall c (List.mem_cons_self c cs)
      have e1 := htl3 k ((hiff k h4).mpr
        (fun c' hc' => hall c' (List.mem_cons_of_mem c hc'))) hkpx
      have hne : a_c.parent_id ≠ some k := by
        rw [hacp]
        intro hh
        injection hh with hh2
        exact hkpx hh2.symm
      have e2 := hts3 k h4 hne
      exact ⟨e1.1.trans e2.1, e1.2.trans e2.2⟩
    · rw [htl4a, (hts4 px hacp).1, hpx]
      rfl
    · rw [htl4b, (hts4 px hacp).2, Option.map_map]
      cases hl : lookupA s.hierarchy.nodes px with
      | none => rfl
      | some n =>
        simp only [Option.map_some', Function.comp]
        have hfil : (n.children.filter (fun e => e != c)).filter
            (fun e => !(List.contains cs e)) =
            n.children.filter (fun e => !(List.contains (c :: cs) e)) := by
          rw [List.filter_filter]
          apply List.filter_congr
          intro b _
          by_cases hbc : b = c
          · subst hbc
            simp
          · simp [List.contains_cons, hbc]
        rw [hfil]
    · exact hctl.trans hctt
    · exact hntl.trans hntt
    · exact hidl.trans hidt
    · exact hcfgl.trans hcfgt

/-- One step of the fuel induction: the single-agent characterization at
fuel + 1 follows from the one at fuel (through the cascade lemma). -/
theorem termAgent_step (fuel : Nat) (hP : PAgent fuel) : PAgent (fuel + 1) := by
  intro s x reason subId agent hMid hlen hx hHX
  have hQ := termChildren_of_termAgent fuel hP
  have hhx : (lookupA s.hierarchy.nodes x).isSome = true :=
    hMid.t_sub_h x (by rw [hx]; rfl)
  obtain ⟨nx, hnx⟩ := Option.isSome_iff_exists.mp hhx
  have haparent : agent.parent_id = nx.parent := hMid.aparent x agent nx hx hnx
  have hparx : s.hierarchy.parent x = agent.parent_id := by
    rw [parent_eq_node s.hierarchy x nx hnx, haparent]
  have hq_not : ∀ q, agent.parent_id = some q → ¬ InSubtree s.hierarchy x q := by
    intro q hq
    exact hMid.acyc x q (by rw [hparx, hq])
  have hq_ne_x : ∀ q, agent.parent_id = some q → q ≠ x := by
    intro q hq heq
    subst heq
    exact hq_not q hq InSubtree.base
  have hxk : x ∈ keysA s.agents :=
    (lookupA_isSome_iff_mem _ _).mp (by rw [hx]; rfl)
  -- the intermediate state after the table removal and parent unlink
  set s1 : Session := { s with agents :=
    match agent.parent_id with
    | some pid => modifyA (eraseA s.agents x) pid (fun p => (p.remove_child x).1)
    | none => eraseA s.agents x } with hs1def
  have hunfold : termAgentF (fuel + 1) s x reason subId =
      ({ (termChildrenF fuel agent.children s1 subId).1 with
          hierarchy :=
            (((termChildrenF fuel agent.children s1 subId).1).hierarchy.remove_agent x).1 },
       (termChildrenF fuel agent.children s1 subId).2 ++ (agent.terminate subId reason).2,
       Except.ok ()) := by
    rw [termAgentF, hx]
  -- basic facts about s1
  have hs1h : s1.hierarchy = s.hierarchy := by rw [hs1def]
  have hs1ct : s1.current_task = s.current_task := by rw [hs1def]
  have hs1nt : s1.next_id = s.next_id := by rw [hs1def]
  have hs1id : s1.id = s.id := by rw [hs1def]
  have hs1cfg : s1.config = s.config := by rw [hs1def]
  have hs1x : lookupA s1.agents x = none := by
    cases hap : agent.parent_id with
    | none =>
      simp only [hs1def, hap]
      exact lookupA_eraseA_self _ _
    | some pid =>
      simp only [hs1def, hap]
      rw [lookupA_modifyA_ne _ _ _ _ (fun hh => hq_ne_x pid hap hh.symm),
        lookupA_eraseA_self]
  have hs1other : ∀ k, k ≠ x → agent.parent_id ≠ some k →
      lookupA s1.agents k = lookupA s.agents k := by
    intro k hk hk2
    cases hap : agent.parent_id with
    | none =>
      simp only [hs1def, hap]
      exact lookupA_eraseA_ne _ _ _ hk
    | some pid =>
      simp only [hs1def, hap]
      have hkpid : k ≠ pid := fun hh => hk2 (by rw [hap, hh])
      rw [lookupA_modifyA_ne _ _ _ _ hkpid]
      exact lookupA_eraseA_ne _ _ _ hk
  have hs1parent : ∀ q, agent.parent_id = some q →
      lookupA s1.agents q = (lookupA s.agents q).map (fun p => (p.remove_child x).1) := by
    intro q hq
    simp only [hs1def, hq]
    rw [lookupA_modifyA_self, lookupA_eraseA_ne _ _ _ (hq_ne_x q hq)]
  have hs1mem : ∀ k, tmemS s1 k = true ↔ (tmemS s k = true ∧ k ≠ x) := by
    intro k
    by_cases hk : k = x
    · subst hk
      rw [tmemS_def, hs1x]
      simp
    · by_cases hk2 : agent.parent_id = some k
      · rw [tmemS_def, hs1parent k hk2, tmemS_def]
        cases hlk : lookupA s.agents k <;> simp [hk]
      · rw [tmemS_def, hs1other k hk hk2, tmemS_def]
        simp [hk]
  have hs1len : s1.agents.length + 1 = s.agents.length := by
    cases hap : agent.parent_id with
    | none =>
      simp only [hs1def, hap]
      exact length_eraseA_of_mem _ _ hMid.ta_nodup hxk
    | some pid =>
      simp only [hs1def, hap]
      rw [length_modifyA]
      exact length_eraseA_of_mem _ _ hMid.ta_nodup hxk
  have hs1nd : (keysA s1.agents).Nodup := by
    cases hap : agent.parent_id with
    | none =>
      simp only [hs1def, hap]
      exact keysA_eraseA_nodup _ _ hMid.ta_nodup
    | some pid =>
      simp only [hs1def, hap]
      rw [keysA_modifyA]
      exact keysA_eraseA_nodup _ _ hMid.ta_nodup
  -- the children of x are exactly the hierarchy children, all live
  have hchx : s.hierarchy.children x = nx.children := children_eq_node _ _ _ hnx
  have hpar_children : ∀ c ∈ nx.children, s.hierarchy.parent c = some x := by
    intro c hc
    exact (hMid.child_iff x c).mp (by rw [hchx]; exact hc)
  have hsub_children : ∀ c ∈ nx.children, InSubtree s.hierarchy x c := by
    intro c hc
    exact InSubtree.step c x (hpar_children c hc) InSubtree.base
  have hne_children : ∀ c ∈ nx.children, c ≠ x := by
    intro c hc heq
    subst heq
    exact hMid.acyc c c (hpar_children c hc) InSubtree.base
  have htm_children : ∀ c ∈ nx.children, tmemS s c = true := by
    intro c hc
    exact hHX c (hsub_children c hc) (hne_children c hc)
  have hcs_eq : agent.children = nx.children := by
    rw [hMid.achildren x agent nx hx hnx]
    exact List.filter_eq_self.mpr (fun c hc => htm_children c hc)
  -- Mid s1
  have hMid1 : Mid s1 := by
    refine ⟨hs1nd, by rw [hs1h]; exact hMid.hn_nodup, ?_, ?_, ?_, ?_, ?_, ?_, ?_⟩
    · intro k hk
      rw [hs1h]
      exact hMid.t_sub_h k ((hs1mem k).mp hk).1
    · intro k a' hk'
      obtain ⟨ht, hkx⟩ := (hs1mem k).mp (tmem_of_lookup hk')
      by_cases hk2 : agent.parent_id = some k
      · rw [hs1parent k hk2] at hk'
        obtain ⟨a₀, ha₀, hfa⟩ := Option.map_eq_some'.mp hk'
        rw [← hfa, remove_child_id]
        exact hMid.agent_id_eq k a₀ ha₀
      · rw [hs1other k hkx hk2] at hk'
        exact hMid.agent_id_eq k a' hk'
    · intro k a' n' hk' hn'
      obtain ⟨ht, hkx⟩ := (hs1mem k).mp (tmem_of_lookup hk')
      rw [hs1h] at hn'
      have hboole : ∀ e, tmemS s1 e = (tmemS s e && (e != x)) := by
        intro e
        apply bool_eq_of_iff
        rw [Bool.and_eq_true, bne_iff_ne]
        exact hs1mem e
      by_cases hk2 : agent.parent_id = some k
      · rw [hs1parent k hk2] at hk'
        obtain ⟨a₀, ha₀, hfa⟩ := Option.map_eq_some'.mp hk'
        have hold := hMid.achildren k a₀ n' ha₀ hn'
        have hnd0 : a₀.children.Nodup := by
          rw [hold]
          exact (hMid.hc_nodup k n' hn').filter _
        rw [← hfa, remove_child_children a₀ x hnd0, hold, List.filter_filter]
        have : ∀ e ∈ n'.children, ((e != x) && tmemS s e) = tmemS s1 e := by
          intro e _
          rw [hboole e, Bool.and_comm]
        exact List.filter_congr this
      · rw [hs1other k hkx hk2] at hk'
        have hold := hMid.achildren k a' n' hk' hn'
        rw [hold]
        apply List.filter_congr
        intro e he
        have hpe : s.hierarchy.parent e = some k := by
          apply (hMid.child_iff k e).mp
          rw [children_eq_node s.hierarchy k n' hn']
          exact he
        have henex : e ≠ x := by
          intro heq
          subst heq
          exact hk2 (hparx ▸ hpe)
        rw [hboole e]
        simp [henex]
    · intro k a' n' hk' hn'
      obtain ⟨ht, hkx⟩ := (hs1mem k).mp (tmem_of_lookup hk')
      rw [hs1h] at hn'
      by_cases hk2 : agent.parent_id = some k
      · rw [hs1parent k hk2] at hk'
        obtain ⟨a₀, ha₀, hfa⟩ := Option.map_eq_some'.mp hk'
        rw [← hfa, remove_child_parent]
        exact hMid.aparent k a₀ n' ha₀ hn'
      · rw [hs1other k hkx hk2] at hk'
        exact hMid.aparent k a' n' hk' hn'
    · intro p c
      rw [hs1h]
      exact hMid.child_iff p c
    · rw [hs1h]
      exact hMid.acyc
    · intro k n' hn'
      rw [hs1h] at hn'
      exact hMid.hc_nodup k n' hn'
  -- hypotheses of the cascade lemma at s1
  have hnd_children : agent.children.Nodup := by
    rw [hcs_eq]
    exact hMid.hc_nodup x nx hnx
  have hcs1 : ∀ c ∈ agent.children, tmemS s1 c = true ∧
      s1.hierarchy.parent c = some x := by
    intro c hc
    rw [hcs_eq] at hc
    constructor
    · exact (hs1mem c).mpr ⟨htm_children c hc, hne_children c hc⟩
    · rw [hs1h]
      exact hpar_children c hc
  have hlive1 : ∀ c ∈ agent.children, ∀ e, InSubtree s1.hierarchy c e → e ≠ c →
      tmemS s1 e = true := by
    intro c hc e hin hne
    rw [hcs_eq] at hc
    rw [hs1h] at hin
    have hsubxe : InSubtree s.hierarchy x e :=
      InSubtree_trans s.hierarchy x c e (hsub_children c hc) hin
    have henex : e ≠ x := by
      intro heq
      subst heq
      exact hMid.acyc c e (hpar_children c hc) hin
    exact (hs1mem e).mpr ⟨hHX e hsubxe henex, henex⟩
  have hlen1 : s1.agents.length ≤ fuel := by omega
  have hTL := hQ agent.children s1 subId x hMid1 hlen1 hs1x hnd_children hcs1 hlive1
  obtain ⟨htl1, htl2, htl3, ⟨htl4a, htl4b⟩, ⟨hnd1l, hnd2l⟩, hlenl, hctl, hntl, hidl, hcfgl⟩ := hTL
  have hTL2 : TermListSpec s1 x agent.children
      (termChildrenF fuel agent.children s1 subId).1 :=
    ⟨htl1, htl2, htl3, ⟨htl4a, htl4b⟩, ⟨hnd1l, hnd2l⟩, hlenl, hctl, hntl, hidl, hcfgl⟩
  -- the hierarchy node of x after the cascade: children emptied
  have hs1nx : lookupA s1.hierarchy.nodes x = some nx := by rw [hs1h]; exact hnx
  have hrx : lookupA (termChildrenF fuel agent.children s1 subId).1.hierarchy.nodes x =
      some { nx with children := [] } := by
    rw [htl4b, hs1nx]
    have hfe : nx.children.filter (fun c => !(List.contains agent.children c)) = [] := by
      apply List.filter_eq_nil_iff.mpr
      intro b hb
      have hbmem : b ∈ agent.children := by
        rw [hcs_eq]
        exact hb
      simp [hbmem]
    simp only [Option.map_some']
    rw [show (List.filter (fun c => !(List.contains agent.children c)) nx.children) = []
      from hfe]
  -- the subtree massage between children-form and x-form
  have hmassage : ∀ k, k ≠ x →
      ((∀ c ∈ agent.children, ¬ InSubtree s.hierarchy c k) ↔
        ¬ InSubtree s.hierarchy x k) := by
    intro k hk
    constructor
    · intro hall hin
      rcases InSubtree_decompose s.hierarchy x k hin with rfl | ⟨c, hcp, hck⟩
      · exact hk rfl
      · have hcmem : c ∈ agent.children := by
          rw [hcs_eq, ← hchx]
          exact (hMid.child_iff x c).mpr hcp
        exact hall c hcmem hck
    · intro hin c hc hck
      rw [hcs_eq] at hc
      exact hin (InSubtree_trans s.hierarchy x c k (hsub_children c hc) hck)
  -- rewrite all cascade facts to the base hierarchy
  rw [hunfold]
  refine And.intro rfl ?_
  refine ⟨?_, ?_, ?_, ?_, ⟨?_, ?_⟩, ?_, ?_, ?_, ?_, ?_⟩
  · -- table membership
    intro k
    show tmemS (termChildrenF fuel agent.children s1 subId).1 k = true ↔ _
    rw [htl1 k, hs1mem k, hs1h]
    by_cases hk : k = x
    · subst hk
      simp only [ne_eq, not_true_eq_false, and_false, false_and, false_iff, not_and, not_not]
      intro _
      exact InSubtree.base
    · constructor
      · rintro ⟨⟨h1, _⟩, h3⟩
        exact ⟨h1, (hmassage k hk).mp h3⟩
      · rintro ⟨h1, h3⟩
        exact ⟨⟨h1, hk⟩, (hmassage k hk).mpr h3⟩
  · -- hierarchy membership
    intro k
    by_cases hk : k = x
    · subst hk
      show hmemH _ k = true ↔ _
      rw [hmemH_def, remove_agent_lookup_self _ _ _ hrx]
      constructor
      · intro hmem2
        simp at hmem2
      · rintro ⟨_, h2⟩
        exact absurd InSubtree.base h2
    · have hpres : (lookupA ((((termChildrenF fuel agent.children s1
          subId).1).hierarchy.remove_agent x).1).nodes k).isSome =
          (lookupA ((termChildrenF fuel agent.children s1
            subId).1).hierarchy.nodes k).isSome := by
        by_cases hk2 : nx.parent = some k
        · rw [remove_agent_lookup_parent _ _ _ _ hrx hk2
            (fun hh => hq_ne_x k (haparent.trans hk2) hh)]
          cases lookupA ((termChildrenF fuel agent.children s1
            subId).1).hierarchy.nodes k <;> rfl
        · rw [remove_agent_lookup_other _ _ _ _ hrx hk hk2]
      have hmem_iff : hmemH ((termChildrenF fuel agent.children s1
          subId).1).hierarchy k = true ↔
          (hmemH s.hierarchy k = true ∧ ¬ InSubtree s.hierarchy x k) := by
        rw [htl2 k, hs1h]
        constructor
        · rintro ⟨h1, h2⟩
          exact ⟨h1, (hmassage k hk).mp h2⟩
        · rintro ⟨h1, h2⟩
          exact ⟨h1, (hmassage k hk).mpr h2⟩
      show hmemH _ k = true ↔ _
      rw [hmemH_def, hpres]
      exact hmem_iff
  · -- untouched entries
    intro k hnik hnpk
    have hkx : k ≠ x := fun hh => hnik (hh ▸ InSubtree.base)
    have hall : ∀ c ∈ agent.children, ¬ InSubtree s1.hierarchy c k := by
      rw [hs1h]
      exact (hmassage k hkx).mpr hnik
    have he3 := htl3 k hall hkx
    constructor
    · show lookupA (termChildrenF fuel agent.children s1 subId).1.agents k = _
      rw [he3.1]
      exact hs1other k hkx hnpk
    · show lookupA ((((termChildrenF fuel agent.children s1 subId).1).hierarchy.remove_agent
          x).1).nodes k = _
      have hk2 : nx.parent ≠ some k := fun hh => hnpk (haparent.trans hh)
      rw [remove_agent_lookup_other _ _ _ _ hrx hkx hk2, he3.2, hs1h]
  · -- the parent entries of x
    intro q hq
    have hqx : q ≠ x := hq_ne_x q hq
    have hqni : ¬ InSubtree s.hierarchy x q := hq_not q hq
    have hall : ∀ c ∈ agent.children, ¬ InSubtree s1.hierarchy c q := by
      rw [hs1h]
      exact (hmassage q hqx).mpr hqni
    have he3 := htl3 q hall hqx
    constructor
    · show lookupA (termChildrenF fuel agent.children s1 subId).1.agents q = _
      rw [he3.1]
      exact hs1parent q hq
    · show lookupA ((((termChildrenF fuel agent.children s1 subId).1).hierarchy.remove_agent
          x).1).nodes q = _
      have hk2 : ({ nx with children := ([] : List Nat) } : HierarchyNode).parent = some q := by
        show nx.parent = some q
        rw [← haparent]
        exact hq
      rw [remove_agent_lookup_parent _ _ _ _ hrx hk2 hqx, he3.2, hs1h]
  · exact hnd1l
  · exact remove_agent_nodup _ _ hnd2l
  · show (termChildrenF fuel agent.children s1 subId).1.agents.length ≤ _
    omega
  · exact hctl.trans hs1ct
  · exact hntl.trans hs1nt
  · exact hidl.trans hs1id
  · exact hcfgl.trans hs1cfg

/-- The single-agent characterization holds at every fuel. -/
theorem termAgentF_spec : ∀ fuel, PAgent fuel := by
  intro fuel
  induction fuel with
  | zero =>
    intro s x reason subId agent hMid hlen hx hHX
    exfalso
    have hnil : s.agents = [] := List.length_eq_zero.mp (Nat.le_zero.mp hlen)
    rw [hnil] at hx
    cases hx
  | succ f ih => exact termAgent_step f ih

/-- Session::terminate_agent on a live agent succeeds and realizes
TermSpec (the wrapper always passes sufficient fuel). -/
theorem terminate_spec (s : Session) (x : Nat) (reason : String) (subId : Nat)
    (agent : Agent) (hMid : Mid s) (hx : lookupA s.agents x = some agent)
    (hHX : ∀ e, InSubtree s.hierarchy x e → e ≠ x → tmemS s e = true) :
    (s.terminate_agent x reason subId).2.2 = Except.ok () ∧
    TermSpec s x agent (s.terminate_agent x reason subId).1 :=
  termAgentF_spec (s.agents.length + 1) s x reason subId agent hMid (by omega) hx hHX

/-- In a fully consistent state the proper subtree of any id is live. -/
theorem WF.live_subtree (s : Session) (hWF : WF s) (x : Nat) :
    ∀ e, InSubtree s.hierarchy x e → e ≠ x → tmemS s e = true := by
  intro e hin hne
  exact hWF.h_sub_t e (InSubtree_node_isSome _ _ _ hin hne)

/-- Session::terminate_agent preserves the full invariant. -/
theorem WF_terminate (s : Session) (x subId : Nat) (reason : String) (hWF : WF s) :
    WF (s.terminate_agent x reason subId).1 := by
  cases hx : lookupA s.agents x with
  | none =>
    rw [show s.terminate_agent x reason subId =
      (s, [], Except.error (GoblinError.AgentNotFound x))
      from termAgentF_miss _ _ _ _ _ hx]
    exact hWF
  | some agent =>
    obtain ⟨hok, hTS⟩ := terminate_spec s x reason subId agent hWF.mid hx
      (WF.live_subtree s hWF x)
    obtain ⟨hts1, hts2, hts3, hts4, hnds, hlen, hct, hnt, hid, hcfg⟩ := hTS
    have hTS2 : TermSpec s x agent (s.terminate_agent x reason subId).1 :=
      ⟨hts1, hts2, hts3, hts4, hnds, hlen, hct, hnt, hid, hcfg⟩
    refine ⟨Mid_of_TermSpec s x agent _ hWF.mid hx hTS2, ?_, ?_⟩
    · intro k hk
      have h2 := (hts2 k).mp hk
      exact (hts1 k).mpr ⟨hWF.h_sub_t k h2.1, h2.2⟩
    · intro k hkm
      have ht2 := (hts1 k).mp ((lookupA_isSome_iff_mem _ _).mpr hkm)
      rw [hnt]
      exact hWF.fresh k ((lookupA_isSome_iff_mem _ _).mp ht2.1)

/-! ## Content lemmas for AgentHierarchy.add_agent -/

theorem add_agent_lookup_self (h : AgentHierarchy) (nid : Nat) (role : AgentRole)
    (parent_id : Option Nat) :
    lookupA (h.add_agent nid role parent_id).nodes nid =
      some { agent_id := nid, role := role, parent := parent_id, children := [] } := by
  cases parent_id with
  | none =>
    simp only [AgentHierarchy.add_agent]
    exact lookupA_insertA_self _ _ _
  | some pid =>
    simp only [AgentHierarchy.add_agent]
    exact lookupA_insertA_self _ _ _

theorem add_agent_lookup_parent (h : AgentHierarchy) (nid pid : Nat)
    (role : AgentRole) (hne : pid ≠ nid) :
    lookupA (h.add_agent nid role (some pid)).nodes pid =
      (lookupA h.nodes pid).map
        (fun n => { n with children := n.children ++ [nid] }) := by
  simp only [AgentHierarchy.add_agent]
  rw [lookupA_insertA_ne _ _ _ _ hne, lookupA_modifyA_self]

theorem add_agent_lookup_other (h : AgentHierarchy) (nid : Nat) (role : AgentRole)
    (parent_id : Option Nat) (k : Nat) (hk : k ≠ nid) (hk2 : parent_id ≠ some k) :
    lookupA (h.add_agent nid role parent_id).nodes k = lookupA h.nodes k := by
  cases parent_id with
  | none =>
    simp only [AgentHierarchy.add_agent]
    exact lookupA_insertA_ne _ _ _ _ hk
  | some pid =>
    simp only [AgentHierarchy.add_agent]
    have hkpid : k ≠ pid := fun hh => hk2 (by rw [hh])
    rw [lookupA_insertA_ne _ _ _ _ hk, lookupA_modifyA_ne _ _ _ _ hkpid]

/-- The success path of Session::spawn_agent preserves the full
invariant, provided any stated parent is live in the table (which
Session::spawn_agent checks before reaching this path). -/
theorem WF_spawn_insert (s : Session) (config : AgentConfig)
    (parent_id : Option Nat) (subId : Nat) (hWF : WF s)
    (hpar : ∀ pid, parent_id = some pid → (lookupA s.agents pid).isSome = true) :
    WF (s.spawn_agent_insert config parent_id subId).1 := by
  obtain ⟨hMid, hht, hfresh⟩ := hWF
  have hfresh_t : lookupA s.agents s.next_id = none := by
    rw [lookupA_eq_none_iff_not_mem]
    intro hmem
    exact absurd (hfresh s.next_id hmem) (Nat.lt_irrefl _)
  have hfresh_h : lookupA s.hierarchy.nodes s.next_id = none := by
    cases hl : lookupA s.hierarchy.nodes s.next_id with
    | none => rfl
    | some n =>
      have hs := hht s.next_id (by rw [hl]; rfl)
      rw [hfresh_t] at hs
      exact absurd hs (by simp)
  have hpar_lt : ∀ pid, parent_id = some pid → pid < s.next_id := by
    intro pid h
    have hs := hpar pid h
    rw [lookupA_isSome_iff_mem] at hs
    exact hfresh pid hs
  have hpar_ne : parent_id ≠ some s.next_id := by
    intro h
    exact absurd (hpar_lt _ h) (Nat.lt_irrefl _)
  have hs'h : (s.spawn_agent_insert config parent_id subId).1.hierarchy =
      s.hierarchy.add_agent s.next_id config.role parent_id := rfl
  have hs'n : (s.spawn_agent_insert config parent_id subId).1.next_id =
      s.next_id + 1 := rfl
  have hs'ct : (s.spawn_agent_insert config parent_id subId).1.current_task =
      s.current_task := rfl
  have hLt_self : lookupA (s.spawn_agent_insert config parent_id subId).1.agents
      s.next_id = some (Agent.new s.next_id config parent_id) := by
    cases hp : parent_id with
    | none =>
      subst hp
      simp only [Session.spawn_agent_insert]
      exact lookupA_insertA_self _ _ _
    | some pid =>
      have hne : s.next_id ≠ pid := Ne.symm (Nat.ne_of_lt (hpar_lt pid hp))
      subst hp
      simp only [Session.spawn_agent_insert]
      rw [lookupA_modifyA_ne _ _ _ _ hne, lookupA_insertA_self]
  have hLt_par : ∀ pid, parent_id = some pid →
      lookupA (s.spawn_agent_insert config parent_id subId).1.agents pid =
        (lookupA s.agents pid).map (fun p => p.add_child s.next_id) := by
    intro pid hp
    have hne : pid ≠ s.next_id := Nat.ne_of_lt (hpar_lt pid hp)
    subst hp
    simp only [Session.spawn_agent_insert]
    rw [lookupA_modifyA_self, lookupA_insertA_ne _ _ _ _ hne]
  have hLt : ∀ k, k ≠ s.next_id → parent_id ≠ some k →
      lookupA (s.spawn_agent_insert config parent_id subId).1.agents k =
        lookupA s.agents k := by
    intro k hk hpk
    cases hp : parent_id with
    | none =>
      subst hp
      simp only [Session.spawn_agent_insert]
      exact lookupA_insertA_ne _ _ _ _ hk
    | some pid =>
      have hne : k ≠ pid := by
        intro hh
        exact hpk (by rw [hp, hh])
      subst hp
      simp only [Session.spawn_agent_insert]
      rw [lookupA_modifyA_ne _ _ _ _ hne, lookupA_insertA_ne _ _ _ _ hk]
  have hLh_self : lookupA (s.spawn_agent_insert config parent_id subId).1.hierarchy.nodes
      s.next_id = some ⟨s.next_id, config.role, parent_id, []⟩ := by
    rw [hs'h]
    exact add_agent_lookup_self _ _ _ _
  have hLh_par : ∀ pid, parent_id = some pid →
      lookupA (s.spawn_agent_insert config parent_id subId).1.hierarchy.nodes pid =
        (lookupA s.hierarchy.nodes pid).map
          (fun n => { n with children := n.children ++ [s.next_id] }) := by
    intro pid hp
    rw [hs'h, hp]
    exact add_agent_lookup_parent _ _ _ _ (Nat.ne_of_lt (hpar_lt pid hp))
  have hLh : ∀ k, k ≠ s.next_id → parent_id ≠ some k →
      lookupA (s.spawn_agent_insert config parent_id subId).1.hierarchy.nodes k =
        lookupA s.hierarchy.nodes k := by
    intro k hk hpk
    rw [hs'h]
    exact add_agent_lookup_other _ _ _ _ _ hk hpk
  have htmem_self : tmemS (s.spawn_agent_insert config parent_id subId).1 s.next_id
      = true := by
    rw [tmemS_def, hLt_self]
    rfl
  have htmem_ne : ∀ c, c ≠ s.next_id →
      tmemS (s.spawn_agent_insert config parent_id subId).1 c = tmemS s c := by
    intro c hc
    by_cases hpc : parent_id = some c
    · rw [tmemS_def, tmemS_def, hLt_par c hpc]
      cases lookupA s.agents c <;> rfl
    · rw [tmemS_def, tmemS_def, hLt c hc hpc]
  have hP_self : (s.spawn_agent_insert config parent_id subId).1.hierarchy.parent
      s.next_id = parent_id := by
    rw [AgentHierarchy.parent, hLh_self]
    rfl
  have hPc : ∀ c, c ≠ s.next_id →
      (s.spawn_agent_insert config parent_id subId).1.hierarchy.parent c =
        s.hierarchy.parent c := by
    intro c hc
    by_cases hpc : parent_id = some c
    · rw [AgentHierarchy.parent, AgentHierarchy.parent, hLh_par c hpc]
      cases lookupA s.hierarchy.nodes c <;> rfl
    · rw [AgentHierarchy.parent, AgentHierarchy.parent, hLh c hc hpc]
  have hC_self : (s.spawn_agent_insert config parent_id subId).1.hierarchy.children
      s.next_id = [] := by
    rw [AgentHierarchy.children, hLh_self]
    rfl
  have hCc : ∀ p, p ≠ s.next_id → parent_id ≠ some p →
      (s.spawn_agent_insert config parent_id subId).1.hierarchy.children p =
        s.hierarchy.children p := by
    intro p hp hpp
    rw [AgentHierarchy.children, AgentHierarchy.children, hLh p hp hpp]
  have hC_par : ∀ pid n0, parent_id = some pid →
      lookupA s.hierarchy.nodes pid = some n0 →
      (s.spawn_agent_insert config parent_id subId).1.hierarchy.children pid =
        n0.children ++ [s.next_id] := by
    intro pid n0 hp hn0
    rw [AgentHierarchy.children, hLh_par pid hp, hn0]
    rfl
  have hch_nid : s.hierarchy.children s.next_id = [] := by
    rw [AgentHierarchy.children, hfresh_h]
    rfl
  have hnid_notchild : ∀ p, s.next_id ∉ s.hierarchy.children p := by
    intro p hmem
    have hpn := (hMid.child_iff p s.next_id).mp hmem
    have hs := parent_isSome_self _ _ _ hpn
    rw [hfresh_h] at hs
    exact absurd hs (by simp)
  have hparent_nonid : ∀ c, s.hierarchy.parent c ≠ some s.next_id := by
    intro c hc
    have hmem := (hMid.child_iff s.next_id c).mpr hc
    rw [hch_nid] at hmem
    exact absurd hmem (List.not_mem_nil c)
  have hMid' : Mid (s.spawn_agent_insert config parent_id subId).1 := by
    refine ⟨?_, ?_, ?_, ?_, ?_, ?_, ?_, ?_, ?_⟩
    · cases parent_id with
      | none =>
        simp only [Session.spawn_agent_insert]
        exact keysA_insertA_nodup _ _ _ hMid.ta_nodup
      | some pid =>
        simp only [Session.spawn_agent_insert]
        rw [keysA_modifyA]
        exact keysA_insertA_nodup _ _ _ hMid.ta_nodup
    · rw [hs'h]
      cases parent_id with
      | none =>
        simp only [AgentHierarchy.add_agent]
        exact keysA_insertA_nodup _ _ _ hMid.hn_nodup
      | some pid =>
        simp only [AgentHierarchy.add_agent]
        apply keysA_insertA_nodup
        rw [keysA_modifyA]
        exact hMid.hn_nodup
    · intro k hk
      by_cases hke : k = s.next_id
      · subst hke
        rw [hLh_self]
        rfl
      · by_cases hpk : parent_id = some k
        · rw [hLh_par k hpk]
          have hn := hMid.t_sub_h k (by
            rw [hLt_par k hpk] at hk
            cases hl : lookupA s.agents k with
            | none => rw [hl] at hk; exact absurd hk (by simp)
            | some a => rfl)
          cases hln : lookupA s.hierarchy.nodes k with
          | none => rw [hln] at hn; exact absurd hn (by simp)
          | some n => rfl
        · rw [hLt k hke hpk] at hk
          rw [hLh k hke hpk]
          exact hMid.t_sub_h k hk
    · intro k a hka
      by_cases hke : k = s.next_id
      · subst hke
        rw [hLt_self] at hka
        cases hka
        rfl
      · by_cases hpk : parent_id = some k
        · rw [hLt_par k hpk] at hka
          cases hl : lookupA s.agents k with
          | none => rw [hl] at hka; exact absurd hka (by simp)
          | some p =>
            rw [hl] at hka
            cases hka
            have := hMid.agent_id_eq k p hl
            simpa [Agent.add_child] using this
        · rw [hLt k hke hpk] at hka
          exact hMid.agent_id_eq k a hka
    · intro k a n hka hkn
      by_cases hke : k = s.next_id
      · subst hke
        rw [hLt_self] at hka
        rw [hLh_self] at hkn
        cases hka
        cases hkn
        rfl
      · by_cases hpk : parent_id = some k
        · have hsome := hpar k hpk
          obtain ⟨p, hp⟩ := Option.isSome_iff_exists.mp hsome
          have hn0s := hMid.t_sub_h k (by rw [hp]; rfl)
          obtain ⟨n0, hn0⟩ := Option.isSome_iff_exists.mp hn0s
          rw [hLt_par k hpk, hp] at hka
          rw [hLh_par k hpk, hn0] at hkn
          cases hka
          cases hkn
          show p.children ++ [s.next_id] = (n0.children ++ [s.next_id]).filter _
          rw [List.filter_append]
          have hf1 : n0.children.filter
              (fun c => tmemS (s.spawn_agent_insert config parent_id subId).1 c) =
              n0.children.filter (fun c => tmemS s c) := by
            apply List.filter_congr
            intro c hc
            have hcm : c ∈ s.hierarchy.children k := by
              rw [children_eq_node _ _ _ hn0]
              exact hc
            have hcp := (hMid.child_iff k c).mp hcm
            have hcs := parent_isSome_self _ _ _ hcp
            have hcne : c ≠ s.next_id := by
              intro hh
              rw [hh, hfresh_h] at hcs
              exact absurd hcs (by simp)
            exact htmem_ne c hcne
          have hf2 : List.filter
              (fun c => tmemS (s.spawn_agent_insert config parent_id subId).1 c)
              [s.next_id] = [s.next_id] := by
            simp [List.filter_cons, htmem_self]
          rw [hf1, hf2, ← hMid.achildren k p n0 hp hn0]
        · rw [hLt k hke hpk] at hka
          rw [hLh k hke hpk] at hkn
          rw [hMid.achildren k a n hka hkn]
          apply List.filter_congr
          intro c hc
          have hcm : c ∈ s.hierarchy.children k := by
            rw [children_eq_node _ _ _ hkn]
            exact hc
          have hcp := (hMid.child_iff k c).mp hcm
          have hcs := parent_isSome_self _ _ _ hcp
          have hcne : c ≠ s.next_id := by
            intro hh
            rw [hh, hfresh_h] at hcs
            exact absurd hcs (by simp)
          exact (htmem_ne c hcne).symm
    · intro k a n hka hkn
      by_cases hke : k = s.next_id
      · subst hke
        rw [hLt_self] at hka
        rw [hLh_self] at hkn
        cases hka
        cases hkn
        rfl
      · by_cases hpk : parent_id = some k
        · rw [hLt_par k hpk] at hka
          rw [hLh_par k hpk] at hkn
          cases hl : lookupA s.agents k with
          | none => rw [hl] at hka; exact absurd hka (by simp)
          | some p =>
            cases hln : lookupA s.hierarchy.nodes k with
            | none => rw [hln] at hkn; exact absurd hkn (by simp)
            | some n0 =>
              rw [hl] at hka
              rw [hln] at hkn
              cases hka
              cases hkn
              show p.parent_id = n0.parent
              exact hMid.aparent k p n0 hl hln
        · rw [hLt k hke hpk] at hka
          rw [hLh k hke hpk] at hkn
          exact hMid.aparent k a n hka hkn
    · intro p c
      by_cases hc : c = s.next_id
      · subst hc
        rw [hP_self]
        constructor
        · intro hmem
          by_cases hp : p = s.next_id
          · subst hp
            rw [hC_self] at hmem
            exact absurd hmem (List.not_mem_nil _)
          · by_cases hpp : parent_id = some p
            · exact hpp
            · rw [hCc p hp hpp] at hmem
              exact absurd hmem (hnid_notchild p)
        · intro hpp
          have hsome := hpar p hpp
          have hn0s := hMid.t_sub_h p hsome
          obtain ⟨n0, hn0⟩ := Option.isSome_iff_exists.mp hn0s
          rw [hC_par p n0 hpp hn0]
          exact List.mem_append.mpr (Or.inr (List.mem_singleton.mpr rfl))
      · rw [hPc c hc]
        by_cases hp : p = s.next_id
        · subst hp
          rw [hC_self]
          constructor
          · intro hmem
            exact absurd hmem (List.not_mem_nil c)
          · intro hpc
            exact absurd hpc (hparent_nonid c)
        · by_cases hpp : parent_id = some p
          · have hsome := hpar p hpp
            have hn0s := hMid.t_sub_h p hsome
            obtain ⟨n0, hn0⟩ := Option.isSome_iff_exists.mp hn0s
            rw [hC_par p n0 hpp hn0, List.mem_append, List.mem_singleton]
            constructor
            · rintro (hmem | hmem)
              · apply (hMid.child_iff p c).mp
                rw [children_eq_node _ _ _ hn0]
                exact hmem
              · exact absurd hmem hc
            · intro hpc
              left
              have hcm := (hMid.child_iff p c).mpr hpc
              rw [children_eq_node _ _ _ hn0] at hcm
              exact hcm
          · rw [hCc p hp hpp]
            exact hMid.child_iff p c
    · have hagree : ∀ e q, e ≠ s.next_id →
          (s.spawn_agent_insert config parent_id subId).1.hierarchy.parent e = some q →
          s.hierarchy.parent e = some q := by
        intro e q he hq
        rw [hPc e he] at hq
        exact hq
      have hnp' : ∀ e,
          (s.spawn_agent_insert config parent_id subId).1.hierarchy.parent e ≠
            some s.next_id := by
        intro e he
        by_cases hne : e = s.next_id
        · subst hne
          rw [hP_self] at he
          exact hpar_ne he
        · rw [hPc e hne] at he
          exact hparent_nonid e he
      intro k p hkp hsub
      by_cases hk : k = s.next_id
      · subst hk
        have hpn := no_parent_fresh _ _ hnp' p hsub
        subst hpn
        rw [hP_self] at hkp
        exact hpar_ne hkp
      · have hpne : p ≠ s.next_id := by
          intro hh
          subst hh
          exact hnp' k hkp
        have hsub0 := InSubtree_drop_fresh s.hierarchy _ s.next_id hnp' hagree
          k p hsub hk hpne
        exact hMid.acyc k p (hagree k p hk hkp) hsub0
    · intro k n hkn
      by_cases hke : k = s.next_id
      · subst hke
        rw [hLh_self] at hkn
        cases hkn
        exact List.nodup_nil
      · by_cases hpk : parent_id = some k
        · rw [hLh_par k hpk] at hkn
          cases hln : lookupA s.hierarchy.nodes k with
          | none => rw [hln] at hkn; exact absurd hkn (by simp)
          | some n0 =>
            rw [hln] at hkn
            cases hkn
            show (n0.children ++ [s.next_id]).Nodup
            refine List.Nodup.append (hMid.hc_nodup k n0 hln)
              (List.nodup_singleton _) ?_
            intro y hy hmem
            rw [List.mem_singleton] at hmem
            subst hmem
            apply hnid_notchild k
            rw [children_eq_node _ _ _ hln]
            exact hy
        · rw [hLh k hke hpk] at hkn
          exact hMid.hc_nodup k n hkn
  refine ⟨hMid', ?_, ?_⟩
  · intro k hk
    by_cases hke : k = s.next_id
    · subst hke
      rw [hLt_self]
      rfl
    · by_cases hpk : parent_id = some k
      · rw [hLt_par k hpk]
        have hs := hpar k hpk
        cases hl : lookupA s.agents k with
        | none => rw [hl] at hs; exact absurd hs (by simp)
        | some p => rfl
      · rw [hLh k hke hpk] at hk
        rw [hLt k hke hpk]
        exact hht k hk
  · intro k hk
    rw [← lookupA_isSome_iff_mem] at hk
    rw [hs'n]
    by_cases hke : k = s.next_id
    · omega
    · by_cases hpk : parent_id = some k
      · have := hpar_lt k hpk
        omega
      · rw [hLt k hke hpk, lookupA_isSome_iff_mem] at hk
        have := hfresh k hk
        omega

/-- Session::spawn_agent preserves the full invariant (error paths
leave the state unchanged; the success path is WF_spawn_insert). -/
theorem WF_spawn (s : Session) (config : AgentConfig) (parent_id : Option Nat)
    (subId : Nat) (hWF : WF s) : WF (s.spawn_agent config parent_id subId).1 := by
  cases parent_id with
  | none =>
    rw [Session.spawn_agent]
    exact WF_spawn_insert s config none subId hWF (by intro pid h; cases h)
  | some pid =>
    cases hp : lookupA s.agents pid with
    | none =>
      rw [Session.spawn_agent]
      simp only [hp]
      exact hWF
    | some parent =>
      cases hcs : parent.can_spawn with
      | false =>
        rw [Session.spawn_agent]
        simp only [hp, hcs]
        exact hWF
      | true =>
        have hstep : (s.spawn_agent config (some pid) subId).1 =
            (s.spawn_agent_insert config (some pid) subId).1 := by
          rw [Session.spawn_agent]
          simp only [hp, hcs]
          rfl
        rw [hstep]
        apply WF_spawn_insert s config (some pid) subId hWF
        intro pid' h
        cases h
        rw [hp]
        rfl

/-- Every state reachable by completed spawn and terminate operations
from Session::new satisfies the full invariant. -/
theorem ReachS_WF (s : Session) (h : ReachS s) : WF s := by
  induction h with
  | init id config =>
    refine ⟨⟨?_, ?_, ?_, ?_, ?_, ?_, ?_, ?_, ?_⟩, ?_, ?_⟩
    · exact List.nodup_nil
    · exact List.nodup_nil
    · intro k hk
      exact absurd hk (by simp [Session.new, lookupA])
    · intro k a hka
      exact absurd hka (by simp [Session.new, lookupA])
    · intro k a n hka _
      exact absurd hka (by simp [Session.new, lookupA])
    · intro k a n hka _
      exact absurd hka (by simp [Session.new, lookupA])
    · intro p c
      constructor
      · intro hmem
        exact absurd hmem (by
          simp [Session.new, AgentHierarchy.new, AgentHierarchy.children, lookupA])
      · intro hp
        exact absurd hp (by
          simp [Session.new, AgentHierarchy.new, AgentHierarchy.parent, lookupA])
    · intro k p hp
      exact absurd hp (by
        simp [Session.new, AgentHierarchy.new, AgentHierarchy.parent, lookupA])
    · intro k n hkn
      exact absurd hkn (by simp [Session.new, AgentHierarchy.new, lookupA])
    · intro k hk
      exact absurd hk (by simp [Session.new, AgentHierarchy.new, lookupA])
    · intro k hk
      exact absurd hk (by simp [Session.new, keysA])
  | spawn s config parent_id subId _ ih => exact WF_spawn s config parent_id subId ih
  | term s agent_id reason subId _ ih => exact WF_terminate s agent_id subId reason ih

/-! ## Claims C1, C2, C3 -/

/-- C1: in every reachable session state, terminate_agent on an id
present in the agent table succeeds; afterwards that id and every
descendant (every id whose pre-state parent chain reaches it) are absent
from both the agent table and the hierarchy; and a second terminate_agent
on the same id fails with AgentNotFound, returning the state unchanged
and emitting no events. -/
theorem claim_C1 (s : Session) (x : Nat) (reason reason2 : String) (subId subId2 : Nat)
    (hreach : ReachS s) (hx : tmemS s x = true) :
    (s.terminate_agent x reason subId).2.2 = Except.ok () ∧
    (∀ k, InSubtree s.hierarchy x k →
      tmemS (s.terminate_agent x reason subId).1 k = false ∧
      hmemH (s.terminate_agent x reason subId).1.hierarchy k = false) ∧
    (s.terminate_agent x reason subId).1.terminate_agent x reason2 subId2 =
      ((s.terminate_agent x reason subId).1, [],
        Except.error (GoblinError.AgentNotFound x)) := by
  have hWF := ReachS_WF s hreach
  rw [tmemS_def] at hx
  obtain ⟨agent, hag⟩ := Option.isSome_iff_exists.mp hx
  obtain ⟨hok, hTS⟩ := terminate_spec s x reason subId agent hWF.mid hag
    (WF.live_subtree s hWF x)
  have hxnone : lookupA (s.terminate_agent x reason subId).1.agents x = none := by
    have hf : tmemS (s.terminate_agent x reason subId).1 x ≠ true :=
      fun ht => ((hTS.1 x).mp ht).2 InSubtree.base
    rw [tmemS_def] at hf
    cases hl : lookupA (s.terminate_agent x reason subId).1.agents x with
    | none => rfl
    | some a' => rw [hl] at hf; exact absurd rfl hf
  refine ⟨hok, ?_, ?_⟩
  · intro k hk
    constructor
    · exact Bool.eq_false_iff.mpr (fun ht => ((hTS.1 k).mp ht).2 hk)
    · exact Bool.eq_false_iff.mpr (fun ht => ((hTS.2.1 k).mp ht).2 hk)
  · rw [Session.terminate_agent]
    exact termAgentF_miss _ _ _ _ _ hxnone

/-- C1 witness: claim_C1 on the reachable one-agent session obtained by
spawning a root under a fresh session. -/
theorem claim_C1_witness :
    (tmemS ((Session.new 0 ⟨2⟩).spawn_agent
        ⟨AgentRole.Orchestrator, true, some 2⟩ none 1).1 0 = true) ∧
    ((((Session.new 0 ⟨2⟩).spawn_agent
          ⟨AgentRole.Orchestrator, true, some 2⟩ none 1).1.terminate_agent
        0 "done" 7).2.2 = Except.ok () ∧
     (∀ k, InSubtree ((Session.new 0 ⟨2⟩).spawn_agent
          ⟨AgentRole.Orchestrator, true, some 2⟩ none 1).1.hierarchy 0 k →
        tmemS (((Session.new 0 ⟨2⟩).spawn_agent
            ⟨AgentRole.Orchestrator, true, some 2⟩ none 1).1.terminate_agent
          0 "done" 7).1 k = false ∧
        hmemH (((Session.new 0 ⟨2⟩).spawn_agent
            ⟨AgentRole.Orchestrator, true, some 2⟩ none 1).1.terminate_agent
          0 "done" 7).1.hierarchy k = false) ∧
     (((Session.new 0 ⟨2⟩).spawn_agent
          ⟨AgentRole.Orchestrator, true, some 2⟩ none 1).1.terminate_agent
        0 "done" 7).1.terminate_agent 0 "again" 8 =
       ((((Session.new 0 ⟨2⟩).spawn_agent
            ⟨AgentRole.Orchestrator, true, some 2⟩ none 1).1.terminate_agent
          0 "done" 7).1, [],
        Except.error (GoblinError.AgentNotFound 0))) :=
  ⟨rfl, claim_C1 _ 0 "done" "again" 7 8
    (ReachS.spawn _ _ _ _ (ReachS.init 0 ⟨2⟩)) rfl⟩

/-- C2: in every reachable session state, spawn_agent fails with
AgentNotFound exactly on a stated parent absent from the table (state
unchanged); fails with SpawnDenied exactly when the stated parent exists
but its can-spawn flag is off or its children count has reached a set
max-children cap (state unchanged); and in the remaining cases succeeds
with the fresh id, growing the agent table by exactly one entry and the
parent's children list by exactly one. -/
theorem claim_C2 (s : Session) (config : AgentConfig) (parent_id : Option Nat)
    (subId : Nat) (hreach : ReachS s) :
    (∀ p, parent_id = some p → lookupA s.agents p = none →
      s.spawn_agent config parent_id subId =
        (s, [], Except.error (GoblinError.AgentNotFound p))) ∧
    (∀ p parent, parent_id = some p → lookupA s.agents p = some parent →
      (parent.config.can_spawn = false ∨
        ∃ m, parent.config.max_children = some m ∧ m ≤ parent.children.length) →
      s.spawn_agent config parent_id subId =
        (s, [], Except.error
          (GoblinError.SpawnDenied "Parent agent cannot spawn more children"))) ∧
    (∀ p parent, parent_id = some p → lookupA s.agents p = some parent →
      parent.config.can_spawn = true →
      (∀ m, parent.config.max_children = some m → parent.children.length < m) →
      (s.spawn_agent config parent_id subId).2.2 = Except.ok s.next_id ∧
      (s.spawn_agent config parent_id subId).1.agents.length = s.agents.length + 1 ∧
      ∃ parent', lookupA (s.spawn_agent config parent_id subId).1.agents p =
          some parent' ∧
        parent'.children.length = parent.children.length + 1) ∧
    (parent_id = none →
      (s.spawn_agent config parent_id subId).2.2 = Except.ok s.next_id ∧
      (s.spawn_agent config parent_id subId).1.agents.length =
        s.agents.length + 1) := by
  have hWF := ReachS_WF s hreach
  have hfresh_t : s.next_id ∉ keysA s.agents :=
    fun hmem => absurd (hWF.fresh _ hmem) (Nat.lt_irrefl _)
  refine ⟨?_, ?_, ?_, ?_⟩
  · intro p hp hnone
    subst hp
    rw [Session.spawn_agent, hnone]
  · intro p parent hp hlook hden
    subst hp
    have hcs : parent.can_spawn = false := by
      cases hcsp : parent.config.can_spawn with
      | false => simp [Agent.can_spawn, hcsp]
      | true =>
        rcases hden with hden | ⟨m, hm, hmle⟩
        · rw [hden] at hcsp
          exact absurd hcsp (by simp)
        · rw [Agent.can_spawn, hcsp, hm]
          simp only [Bool.not_true, Bool.false_eq_true, if_false,
            decide_eq_false_iff_not]
          omega
    rw [Session.spawn_agent]
    simp only [hlook, hcs]
    rfl
  · intro p parent hp hlook hcsp hcap
    subst hp
    have hcs : parent.can_spawn = true := by
      rw [Agent.can_spawn, hcsp]
      cases hm : parent.config.max_children with
      | none => simp
      | some m =>
        simp only [Bool.not_true, Bool.false_eq_true, if_false,
          decide_eq_true_eq]
        exact hcap m hm
    have hstep : s.spawn_agent config (some p) subId =
        s.spawn_agent_insert config (some p) subId := by
      rw [Session.spawn_agent]
      simp only [hlook, hcs]
      rfl
    have hpmem : p ∈ keysA s.agents :=
      (lookupA_isSome_iff_mem _ _).mp (by rw [hlook]; rfl)
    have hpne : p ≠ s.next_id := fun hh => hfresh_t (hh ▸ hpmem)
    rw [hstep]
    refine ⟨rfl, ?_, ?_⟩
    · simp only [Session.spawn_agent_insert]
      rw [length_modifyA, length_insertA_of_not_mem _ _ _ hfresh_t]
    · refine ⟨parent.add_child s.next_id, ?_, by simp [Agent.add_child]⟩
      simp only [Session.spawn_agent_insert]
      rw [lookupA_modifyA_self, lookupA_insertA_ne _ _ _ _ hpne, hlook]
      rfl
  · intro hp
    subst hp
    have hstep : s.spawn_agent config none subId =
        s.spawn_agent_insert config none subId := by
      rw [Session.spawn_agent]
    rw [hstep]
    refine ⟨rfl, ?_⟩
    simp only [Session.spawn_agent_insert]
    rw [length_insertA_of_not_mem _ _ _ hfresh_t]

/-- C2 witness: claim_C2 on the fresh empty session, exercising the
parentless success case. -/
theorem claim_C2_witness :
    ((Session.new 0 ⟨2⟩).spawn_agent
        ⟨AgentRole.Orchestrator, true, some 2⟩ none 1).2.2 =
      Except.ok (Session.new 0 ⟨2⟩).next_id ∧
    ((Session.new 0 ⟨2⟩).spawn_agent
        ⟨AgentRole.Orchestrator, true, some 2⟩ none 1).1.agents.length =
      (Session.new 0 ⟨2⟩).agents.length + 1 :=
  (claim_C2 (Session.new 0 ⟨2⟩) ⟨AgentRole.Orchestrator, true, some 2⟩ none 1
    (ReachS.init 0 ⟨2⟩)).2.2.2 rfl

/-- C3: in every session state reachable by completed spawn and
terminate operations, the two views of the hierarchy agree: c is a member
of children(p) exactly when parent(c) = some p. -/
theorem claim_C3 (s : Session) (hreach : ReachS s) (p c : Nat) :
    c ∈ s.hierarchy.children p ↔ s.hierarchy.parent c = some p :=
  (ReachS_WF s hreach).mid.child_iff p c

/-- C3 witness: claim_C3 on the reachable two-agent session (root 0 with
child 1), at the edge (0, 1). -/
theorem claim_C3_witness :
    1 ∈ (((Session.new 0 ⟨2⟩).spawn_agent
          ⟨AgentRole.Orchestrator, true, some 2⟩ none 1).1.spawn_agent
        ⟨AgentRole.Worker, true, none⟩ (some 0) 2).1.hierarchy.children 0 ↔
      (((Session.new 0 ⟨2⟩).spawn_agent
          ⟨AgentRole.Orchestrator, true, some 2⟩ none 1).1.spawn_agent
        ⟨AgentRole.Worker, true, none⟩ (some 0) 2).1.hierarchy.parent 1 = some 0 :=
  claim_C3 _ (ReachS.spawn _ _ _ _ (ReachS.spawn _ _ _ _ (ReachS.init 0 ⟨2⟩))) 0 1

end Cabal
